import Mathlib

/-!
Verification of the agent orchestration core of the `agent` repository
(server side, `src/server/src`): the stream helper, the tool registry and
executor, the widget generator, the LLM response parser and the
orchestration loop of `Agent.processRequest` / `Agent.processWithToolLoop`.

The TypeScript code is embedded shallowly:

* runtime JSON values (results of `JSON.parse`) become the inductive `Json`;
  numbers are modelled as integers (no claim depends on a numeric value,
  and fractional literals merely make `JSON.parse` take the same failure
  path as any other unparseable input in the model);
* `async` functions become pure functions; the completion order of the
  parallel handler fan-out in `ToolExecutor.executeMany` is an explicit
  parameter (a permutation of the call list), since JavaScript `Map`
  insertion order is the order in which `results.set` runs;
* thrown exceptions become `Option`/`Except` error values;
* identifier minting that uses `Date.now()` or `Math.random()` is replaced
  by a deterministic counter; no claim depends on the minted text;
* the SSE wire (`res.write`) is modelled by the list of events accepted by
  the `StreamHelper` while it was open, in order.
-/

/-! ## JSON runtime values -/

/-- A JavaScript value produced by `JSON.parse`.  Object fields keep
insertion order (first occurrence of a key), as JavaScript objects do. -/
inductive Json where
  | null
  | bool (b : Bool)
  | num (i : Int)
  | str (s : String)
  | arr (elems : List Json)
  | obj (fields : List (String × Json))

/-- Left curly brace character (written via its code point). -/
def lbrace : Char := Char.ofNat 123

/-- Right curly brace character. -/
def rbrace : Char := Char.ofNat 125

/-- JavaScript truthiness of a `Json` value: `null`, `false`, `0` and the
empty string are falsy; arrays and objects are always truthy. -/
def jsTruthy : Json → Bool
  | .null => false
  | .bool b => b
  | .num i => decide (i ≠ 0)
  | .str s => decide (s ≠ "")
  | .arr _ => true
  | .obj _ => true

/-- Truthiness of an optional value; `none` models JavaScript `undefined`. -/
def jsTruthyOpt : Option Json → Bool
  | none => false
  | some v => jsTruthy v

/-- First-occurrence lookup in an association list (JavaScript property
read `o.k`); `none` models `undefined`. -/
def jsGet (fields : List (String × Json)) (k : String) : Option Json :=
  match fields with
  | [] => none
  | (k', v) :: rest => if k' = k then some v else jsGet rest k

/-- Property read on an arbitrary value: only objects have properties in
the cases the code exercises (reads on primitives yield `undefined`). -/
def Json.get : Json → String → Option Json
  | .obj fields, k => jsGet fields k
  | _, _ => none

/-- Embedding of `map.set k v` on an association list with JavaScript `Map`/object
semantics: an existing key is updated in place (keeping its position), a
new key is appended at the end. -/
def jsMapSet (l : List (String × α)) (k : String) (v : α) : List (String × α) :=
  match l with
  | [] => [(k, v)]
  | (k', v') :: rest => if k' = k then (k, v) :: rest else (k', v') :: jsMapSet rest k v

/-- Embedding of `map.delete k` on an association list (JavaScript `Map` semantics). -/
def jsMapDelete (l : List (String × α)) (k : String) : List (String × α) :=
  match l with
  | [] => []
  | (k', v') :: rest => if k' = k then rest else (k', v') :: jsMapDelete rest k

/-- Embedding of `map.get k` on an association list. -/
def jsMapGet (l : List (String × α)) (k : String) : Option α :=
  match l with
  | [] => none
  | (k', v') :: rest => if k' = k then some v' else jsMapGet rest k

/-! ## JSON.stringify (used by `buildToolResultMessages`) -/

/-- Escape one character the way `JSON.stringify` escapes string data. -/
def jsonEscapeChar (c : Char) : List Char :=
  if c = '"' then ['\\', '"']
  else if c = '\\' then ['\\', '\\']
  else if c = '\n' then ['\\', 'n']
  else if c = '\r' then ['\\', 'r']
  else if c = '\t' then ['\\', 't']
  else if c.toNat = 8 then ['\\', 'b']
  else if c.toNat = 12 then ['\\', 'f']
  else if c.toNat < 32 then
    ['\\', 'u', '0', '0',
      (Nat.digitChar (c.toNat / 16)),
      (Nat.digitChar (c.toNat % 16))]
  else [c]

/-- Quote and escape a string as `JSON.stringify` renders it. -/
def jsonQuote (s : String) : String :=
  "\"" ++ ⟨s.data.flatMap jsonEscapeChar⟩ ++ "\""

mutual

/-- Embedding of `JSON.stringify` on a runtime value (no indentation argument). -/
def Json.stringify : Json → String
  | .null => "null"
  | .bool b => if b then "true" else "false"
  | .num i => toString i
  | .str s => jsonQuote s
  | .arr elems => "[" ++ Json.stringifyList elems ++ "]"
  | .obj fields => String.singleton lbrace ++ Json.stringifyFields fields ++ String.singleton rbrace

/-- Comma-separated rendering of array elements. -/
def Json.stringifyList : List Json → String
  | [] => ""
  | [x] => x.stringify
  | x :: xs => x.stringify ++ "," ++ Json.stringifyList xs

/-- Comma-separated rendering of object members. -/
def Json.stringifyFields : List (String × Json) → String
  | [] => ""
  | [(k, v)] => jsonQuote k ++ ":" ++ v.stringify
  | (k, v) :: xs => jsonQuote k ++ ":" ++ v.stringify ++ "," ++ Json.stringifyFields xs

end

/-! ## JSON.parse (model)

The orchestrator calls the ECMAScript built-in `JSON.parse`.  The model
below parses the standard grammar, restricted to integer numeric literals
(a fractional or exponent literal makes the model fail, i.e. take the same
`catch` path as any other invalid input; no claim depends on such inputs).
The parser is fuelled by the input length; every recursive call consumes
at least one character first, so the fuel never runs out on real input. -/

/-- Whitespace accepted between JSON tokens. -/
def isJsonWs (c : Char) : Bool :=
  c = ' ' || c = '\t' || c = '\n' || c = '\r'

/-- Drop leading JSON whitespace. -/
def skipJsonWs (cs : List Char) : List Char :=
  match cs with
  | [] => []
  | c :: rest => if isJsonWs c then skipJsonWs rest else cs

/-- Decode a hexadecimal digit. -/
def hexDigitVal (c : Char) : Option Nat :=
  if '0' ≤ c && c ≤ '9' then some (c.toNat - 48)
  else if 'a' ≤ c && c ≤ 'f' then some (c.toNat - 87)
  else if 'A' ≤ c && c ≤ 'F' then some (c.toNat - 55)
  else none

/-- Parse the body of a JSON string literal (after the opening quote),
returning the decoded string and the input after the closing quote.
Raw control characters are rejected, as `JSON.parse` rejects them. -/
def jsonStringBody (acc : List Char) : List Char → Option (String × List Char)
  | [] => none
  | c :: rest =>
    if c = '"' then some (⟨acc.reverse⟩, rest)
    else if c = '\\' then
      match rest with
      | [] => none
      | e :: rest' =>
        if e = '"' then jsonStringBody ('"' :: acc) rest'
        else if e = '\\' then jsonStringBody ('\\' :: acc) rest'
        else if e = '/' then jsonStringBody ('/' :: acc) rest'
        else if e = 'b' then jsonStringBody (Char.ofNat 8 :: acc) rest'
        else if e = 'f' then jsonStringBody (Char.ofNat 12 :: acc) rest'
        else if e = 'n' then jsonStringBody ('\n' :: acc) rest'
        else if e = 'r' then jsonStringBody ('\r' :: acc) rest'
        else if e = 't' then jsonStringBody ('\t' :: acc) rest'
        else if e = 'u' then
          match rest' with
          | h1 :: h2 :: h3 :: h4 :: rest'' =>
            match hexDigitVal h1, hexDigitVal h2, hexDigitVal h3, hexDigitVal h4 with
            | some a, some b, some c3, some d =>
              jsonStringBody (Char.ofNat (((a * 16 + b) * 16 + c3) * 16 + d) :: acc) rest''
            | _, _, _, _ => none
          | _ => none
        else none
    else if c.toNat < 32 then none
    else jsonStringBody (c :: acc) rest

/-- Parse an unsigned decimal digit run. -/
def jsonDigits (acc : Nat) : List Char → Nat × List Char
  | [] => (acc, [])
  | c :: rest =>
    if '0' ≤ c && c ≤ '9' then jsonDigits (acc * 10 + (c.toNat - 48)) rest
    else (acc, c :: rest)

/-- Parse a JSON integer literal (no leading zeros, optional minus). -/
def jsonNumber (cs : List Char) : Option (Int × List Char) :=
  let (neg, cs₁) :=
    match cs with
    | '-' :: rest => (true, rest)
    | _ => (false, cs)
  match cs₁ with
  | [] => none
  | c :: rest =>
    if c = '0' then some ((0 : Int), rest)
    else if '1' ≤ c && c ≤ '9' then
      let (n, rest') := jsonDigits (c.toNat - 48) rest
      some (if neg then -(n : Int) else (n : Int), rest')
    else none

mutual

/-- Parse one JSON value. -/
def jsonValue : Nat → List Char → Option (Json × List Char)
  | 0, _ => none
  | fuel + 1, cs =>
    match skipJsonWs cs with
    | [] => none
    | c :: rest =>
      if c = '"' then (jsonStringBody [] rest).map (fun p => (.str p.1, p.2))
      else if c = lbrace then
        match skipJsonWs rest with
        | c' :: rest' =>
          if c' = rbrace then some (.obj [], rest')
          else jsonMembers fuel [] (c' :: rest')
        | [] => none
      else if c = '[' then
        match skipJsonWs rest with
        | c' :: rest' =>
          if c' = ']' then some (.arr [], rest')
          else jsonElems fuel [] (c' :: rest')
        | [] => none
      else if c = 't' then
        match rest with
        | 'r' :: 'u' :: 'e' :: rest' => some (.bool true, rest')
        | _ => none
      else if c = 'f' then
        match rest with
        | 'a' :: 'l' :: 's' :: 'e' :: rest' => some (.bool false, rest')
        | _ => none
      else if c = 'n' then
        match rest with
        | 'u' :: 'l' :: 'l' :: rest' => some (.null, rest')
        | _ => none
      else
        (jsonNumber (c :: rest)).map (fun p => (.num p.1, p.2))

/-- Parse the remaining elements of a non-empty array. -/
def jsonElems : Nat → List Json → List Char → Option (Json × List Char)
  | 0, _, _ => none
  | fuel + 1, acc, cs =>
    match jsonValue fuel cs with
    | none => none
    | some (v, rest) =>
      match skipJsonWs rest with
      | ',' :: rest' => jsonElems fuel (v :: acc) rest'
      | c :: rest' =>
        if c = ']' then some (.arr (v :: acc).reverse, rest') else none
      | [] => none

/-- Parse the remaining members of a non-empty object.  A duplicate key is
assigned again, keeping the position of its first occurrence, as in
JavaScript. -/
def jsonMembers : Nat → List (String × Json) → List Char → Option (Json × List Char)
  | 0, _, _ => none
  | fuel + 1, acc, cs =>
    match skipJsonWs cs with
    | c :: rest =>
      if c = '"' then
        match jsonStringBody [] rest with
        | none => none
        | some (k, rest₁) =>
          match skipJsonWs rest₁ with
          | ':' :: rest₂ =>
            match jsonValue fuel rest₂ with
            | none => none
            | some (v, rest₃) =>
              let acc' := jsMapSet acc k v
              match skipJsonWs rest₃ with
              | ',' :: rest₄ => jsonMembers fuel acc' rest₄
              | c' :: rest₄ =>
                if c' = rbrace then some (.obj acc', rest₄) else none
              | [] => none
          | _ => none
      else none
    | [] => none

end

/-- Embedding of `JSON.parse` on a character list: one value, with surrounding
whitespace, consuming the whole input. -/
def jsonParse (cs : List Char) : Option Json :=
  match jsonValue (cs.length + 1) cs with
  | some (v, rest) => if skipJsonWs rest = [] then some v else none
  | none => none

/-! ## Protocol data model (`src/server/src/types/protocol.ts`, `types/llm.ts`) -/

/-- An action descriptor attached to a widget
(`WidgetActionDef`, protocol.ts). -/
structure WidgetActionDef where
  id : String
  label : String
  actionType : String
  variant : Option String
deriving Repr, DecidableEq

/-- A widget block sent to the client (`WidgetBlock`, protocol.ts).
`data` is an arbitrary runtime value; `vdom` is kept as raw JSON (the
orchestrator never inspects it). -/
structure WidgetBlock where
  id : String
  widgetType : String
  data : Json
  actions : Option (List WidgetActionDef)
  vdom : Option Json

/-- One outbound stream event (`StreamEvent`, protocol.ts). -/
inductive StreamEvent where
  | textDelta (content : String)
  | widget (w : WidgetBlock)
  | status (s : String)
  | done
  | error (message : String) (code : String)

/-- A chat turn in the request body (`Message`, protocol.ts).  The
optional `widgetAction` payload is omitted: the LLM agent never reads
it. -/
structure ChatMessage where
  role : String
  content : String

/-- The chat request body (`ChatRequest`, protocol.ts). -/
structure ChatRequest where
  messages : List ChatMessage
  conversationId : Option String

/-- A message in the LLM dialogue (`LLMMessage`, types/llm.ts). -/
structure LLMMessage where
  role : String
  content : String
  toolCallId : Option String

/-- A parsed tool call (`ToolCall`, types/llm.ts).  At runtime `arguments`
is whatever JSON value the LLM supplied. -/
structure ToolCall where
  id : String
  name : String
  arguments : Json

/-- A chunk of the provider stream (`StreamChunk`, types/llm.ts). -/
inductive StreamChunk where
  | content (s : String)
  | done
  | error (e : Option String)

/-! ## Tool system (`src/server/src/types/tools.ts`, `tools/tool-registry.ts`) -/

/-- A tool execution result (`ToolResult`, types/tools.ts).  `none` in
`data`/`error`/`widgets` models an absent (undefined) field. -/
structure ToolResult where
  success : Bool
  data : Option Json
  error : Option String
  widgets : Option (List WidgetBlock)

/-- A tool definition (`ToolDefinition` / `ToolModel`, types/tools.ts);
`parameters` is kept as raw JSON (the orchestrator never validates
arguments — `validateArguments` is dead code on this path), and `domain`
is the optional `ToolModel` tag. -/
structure ToolDefinition where
  name : String
  description : String
  parameters : Json
  domain : Option String

/-- A tool handler (`ToolHandler`).  The handler is `async`: it either
resolves with a `ToolResult` or rejects; `Except.error m` models a thrown
error whose message is `m`. -/
def ToolHandler : Type := Json → Except String ToolResult

/-- A registry entry (`RegisteredTool`). -/
structure RegisteredTool where
  definition : ToolDefinition
  handler : ToolHandler

/-- The tool registry (`ToolRegistry`, tools/tool-registry.ts): a
JavaScript `Map` from name to entry, modelled as an insertion-ordered
association list. -/
structure ToolRegistry where
  tools : List (String × RegisteredTool)

/-- Embedding of `ToolRegistry.register` (tool-registry.ts:86-92): `Map.set` with
last-write-wins (the duplicate-name warning is only logged). -/
def ToolRegistry.register (r : ToolRegistry) (definition : ToolDefinition)
    (handler : ToolHandler) : ToolRegistry :=
  ⟨jsMapSet r.tools definition.name ⟨definition, handler⟩⟩

/-- Embedding of `ToolRegistry.get`. -/
def ToolRegistry.get (r : ToolRegistry) (name : String) : Option RegisteredTool :=
  jsMapGet r.tools name

/-- Embedding of `ToolRegistry.has`. -/
def ToolRegistry.has (r : ToolRegistry) (name : String) : Bool :=
  (r.get name).isSome

/-- Embedding of `ToolRegistry.getAllDefinitions`. -/
def ToolRegistry.getAllDefinitions (r : ToolRegistry) : List ToolDefinition :=
  r.tools.map (fun p => p.2.definition)

/-- Embedding of `ToolRegistry.getDefinitionsByDomain` (tool-registry.ts:119-130):
tools without a domain tag are always included. -/
def ToolRegistry.getDefinitionsByDomain (r : ToolRegistry) (domains : List String) :
    List ToolDefinition :=
  ((r.tools.map (fun p => p.2.definition)).filter
    (fun d => match d.domain with
      | some dom => domains.contains dom
      | none => true))

/-- Embedding of `ToolRegistry.getAllNames` (JavaScript `Map.keys()` yields insertion
order). -/
def ToolRegistry.getAllNames (r : ToolRegistry) : List String :=
  r.tools.map (fun p => p.1)

/-- Embedding of `ToolRegistry.unregister` (tool-registry.ts:142-144): `Map.delete`;
the boolean return value is unused by all callers and not modelled. -/
def ToolRegistry.unregister (r : ToolRegistry) (name : String) : ToolRegistry :=
  ⟨jsMapDelete r.tools name⟩

/-- Embedding of `ToolRegistry.clear`. -/
def ToolRegistry.clear (_ : ToolRegistry) : ToolRegistry := ⟨[]⟩

/-- Embedding of `ToolRegistry.size`. -/
def ToolRegistry.size (r : ToolRegistry) : Nat := r.tools.length

/-! ## Tool executor (second file of `src/server/src/tools/message-tools.ts`,
lines 587-649) -/

/-- Embedding of `ToolExecutor.execute` (lines 597-619): unknown names fail the call
with a message naming the tool and listing the registered names; a handler
rejection is caught and becomes a failed result carrying the thrown
message. -/
def ToolExecutor.execute (registry : ToolRegistry) (toolCall : ToolCall) : ToolResult :=
  match registry.get toolCall.name with
  | none =>
    { success := false
      data := none
      error := some ("Unknown tool: " ++ toolCall.name ++ ". Available tools: "
        ++ String.intercalate ", " registry.getAllNames)
      widgets := none }
  | some tool =>
    match tool.handler toolCall.arguments with
    | .ok result => result
    | .error m =>
      { success := false
        data := none
        error := some ("Tool execution failed: " ++ m)
        widgets := none }

/-- Embedding of `ToolExecutor.executeMany` (lines 624-635).  All calls are started in
parallel (`Promise.all`); each subtask performs `results.set(call.id, r)`
when its handler completes, so the insertion order of the result `Map` is
the handlers' completion order.  `order` is that completion order — in any
real schedule it is a permutation of `toolCalls`; with pure handlers the
result stored for a call depends only on the call itself. -/
def ToolExecutor.executeManyWithOrder (registry : ToolRegistry)
    (order : List ToolCall) : List (String × ToolResult) :=
  order.foldl (fun results call =>
    jsMapSet results call.id (ToolExecutor.execute registry call)) []

/-- Embedding of `ToolExecutor.executeSequential` (lines 640-649): one at a time, so the
completion order is exactly the call order. -/
def ToolExecutor.executeSequential (registry : ToolRegistry)
    (toolCalls : List ToolCall) : List (String × ToolResult) :=
  ToolExecutor.executeManyWithOrder registry toolCalls

/-! ## Widget generator (`src/server/src/widgets/widget-generator.ts`) -/

/-- Embedding of `WidgetGenerator.generateFromToolResults` (lines 21-31): it walks the
result `Map` in its (insertion) order and concatenates the `widgets` of
results with `success && widgets` truthy; any array — even an empty one —
is truthy. -/
def WidgetGenerator.generateFromToolResults
    (results : List (String × ToolResult)) : List WidgetBlock :=
  results.foldl (fun widgets p =>
    match p.2.widgets with
    | some ws => if p.2.success then widgets ++ ws else widgets
    | none => widgets) []

/-- Embedding of `generateWidgetId` (lines 13-15), with the `Date.now()` component of
the minted text dropped: the monotonic counter alone keeps ids distinct in
the model, and no claim reads the id text. -/
def generateWidgetId (widgetType : String) (counter : Nat) : String :=
  "widget-" ++ widgetType ++ "-" ++ toString (counter + 1)

/-- Embedding of `WidgetGenerator.inferActions` (lines 90-144). -/
def WidgetGenerator.inferActions (widgetType : String) (data : Json) :
    List WidgetActionDef :=
  if widgetType = "email_preview" then
    [⟨"reply", "Reply", "button", some "primary"⟩,
     ⟨"archive", "Archive", "button", some "default"⟩,
     ⟨"open", "Open", "link", none⟩]
  else if widgetType = "calendar_event" then
    if jsTruthyOpt (data.get "meetingLink") then
      [⟨"join", "Join Meeting", "button", some "primary"⟩,
       ⟨"decline", "Decline", "button", some "default"⟩,
       ⟨"details", "View Details", "link", none⟩]
    else
      [⟨"details", "View Details", "button", some "primary"⟩,
       ⟨"decline", "Decline", "button", some "default"⟩]
  else if widgetType = "meeting_card" then
    [⟨"join", "Join Meeting", "button", some "primary"⟩,
     ⟨"add_to_calendar", "Add to Calendar", "button", some "default"⟩,
     ⟨"view_agenda", "View Full Agenda", "link", none⟩]
  else if widgetType = "flight_card" then
    [⟨"book", "Book Now", "button", some "primary"⟩,
     ⟨"details", "Flight Details", "button", some "default"⟩,
     ⟨"compare", "Compare Prices", "link", none⟩]
  else if widgetType = "form" then
    [⟨"submit", "Submit", "form", some "primary"⟩,
     ⟨"cancel", "Cancel", "button", some "default"⟩]
  else if widgetType = "search_results" then
    [⟨"view_all", "View All", "button", some "primary"⟩,
     ⟨"refine", "Refine Search", "link", none⟩]
  else []

/-- An LLM widget descriptor (`WidgetDefinition`, types/llm.ts) as decoded
from the parsed JSON: `type` must be a string to be usable, `data` and
`vdom` are raw values. -/
structure WidgetDefinition where
  widgetType : String
  data : Option Json
  vdom : Option Json

/-- Decode one element of the `widgets` array of the parsed response into
a `WidgetDefinition` (runtime property reads; a non-string `type` is
modelled as the empty string, which matches no predefined type, exactly
like the original value would). -/
def decodeWidgetDef (j : Json) : WidgetDefinition :=
  { widgetType :=
      match j.get "type" with
      | some (.str s) => s
      | _ => ""
    data := j.get "data"
    vdom := j.get "vdom" }

/-- Embedding of `WidgetGenerator.createCustomWidget` (lines 78-85); the default
parameter `data = {}` applies when the caller passed `undefined`. -/
def WidgetGenerator.createCustomWidget (vdom : Json) (data : Option Json)
    (counter : Nat) : WidgetBlock × Nat :=
  ({ id := generateWidgetId "custom" counter
     widgetType := "custom"
     data := data.getD (.obj [])
     actions := none
     vdom := some vdom }, counter + 1)

/-- Embedding of `WidgetGenerator.createWidget` (lines 52-73): schema validation only
logs a warning and never blocks creation, so it is not modelled; `custom`
types with a truthy `vdom` become custom blocks, everything else becomes a
standard block with inferred actions.  A missing `data` is the undefined
value, modelled as `Json.null`. -/
def WidgetGenerator.createWidget (def_ : WidgetDefinition) (counter : Nat) :
    WidgetBlock × Nat :=
  if def_.widgetType = "custom" && jsTruthyOpt def_.vdom then
    WidgetGenerator.createCustomWidget (def_.vdom.getD .null) def_.data counter
  else
    ({ id := generateWidgetId def_.widgetType counter
       widgetType := def_.widgetType
       data := def_.data.getD .null
       actions := some (WidgetGenerator.inferActions def_.widgetType (def_.data.getD .null))
       vdom := none }, counter + 1)

/-- Embedding of `WidgetGenerator.parseFromLLMResponse` (lines 36-47); `createWidget`
never returns `null`, so every descriptor yields a block. -/
def WidgetGenerator.parseFromLLMResponse (widgetDefs : List Json) (counter : Nat) :
    List WidgetBlock × Nat :=
  widgetDefs.foldl (fun (acc : List WidgetBlock × Nat) j =>
    let (w, c') := WidgetGenerator.createWidget (decodeWidgetDef j) acc.2
    (acc.1 ++ [w], c')) ([], counter)

/-! ## String utilities used by the response parser -/

/-- The backtick character. -/
def btick : Char := Char.ofNat 96

/-- A fenced-code delimiter (three backticks). -/
def fence : List Char := [btick, btick, btick]

/-- Does `pat` occur at the head of `cs`? -/
def listStartsWith (pat cs : List Char) : Bool :=
  match pat, cs with
  | [], _ => true
  | _ :: _, [] => false
  | p :: ps, c :: rest => p = c && listStartsWith ps rest

/-- Characters in the JavaScript `\s` class / `String.trim` set
(ASCII part plus no-break space and BOM; the code never meets the other
Unicode space characters). -/
def isJsWsChar (c : Char) : Bool :=
  c = ' ' || c = '\t' || c = '\n' || c = '\r' ||
  c.toNat = 11 || c.toNat = 12 || c.toNat = 160 || c.toNat = 65279

/-- Drop leading JavaScript whitespace. -/
def dropLeadingJsWs (cs : List Char) : List Char :=
  match cs with
  | [] => []
  | c :: rest => if isJsWsChar c then dropLeadingJsWs rest else cs

/-- Embedding of `String.trim` of JavaScript. -/
def jsTrimList (cs : List Char) : List Char :=
  (dropLeadingJsWs (dropLeadingJsWs cs.reverse).reverse)

/-- Embedding of `String.trim` on a `String`. -/
def jsTrim (s : String) : String := ⟨jsTrimList s.data⟩

/-- Lazy capture of `([\s\S]*?)` up to the next code fence: the shortest
prefix followed by three backticks; `none` when no fence follows. -/
def captureUntilFence (cs : List Char) : Option (List Char) :=
  match cs with
  | [] => none
  | c :: rest =>
    if listStartsWith fence (c :: rest) then some []
    else (captureUntilFence rest).map (fun b => c :: b)

/-- Try the regex `/```(?:json)?\s*([\s\S]*?)```/` at the start of `cs`
and return the capture group. -/
def matchCodeBlockAt (cs : List Char) : Option (List Char) :=
  if listStartsWith fence cs then
    let r1 := cs.drop 3
    let r2 := if listStartsWith ("json".toList) r1 then r1.drop 4 else r1
    captureUntilFence (dropLeadingJsWs r2)
  else none

/-- First match of the code-block regex anywhere in the input
(`response.match(...)`, agent.ts:222). -/
def scanCodeBlock (cs : List Char) : Option (List Char) :=
  match cs with
  | [] => none
  | c :: rest =>
    match matchCodeBlockAt (c :: rest) with
    | some b => some b
    | none => scanCodeBlock rest

/-- The regex `/\{[\s\S]*\}/` (agent.ts:228): greedy, so it spans from the
first left brace to the last right brace; no match when no right brace
follows the first left brace. -/
def sliceFirstLastBraces (cs : List Char) : Option (List Char) :=
  match cs.findIdx? (fun c => c = lbrace), cs.reverse.findIdx? (fun c => c = rbrace) with
  | some i, some k =>
    let j := cs.length - 1 - k
    if i < j then some ((cs.drop i).take (j + 1 - i)) else none
  | _, _ => none

/-- The JSON-candidate slice of a raw LLM response: unwrap a fenced code
block if one is present (taking the trimmed body), then cut from the first
`{` to the last `}` (agent.ts:218-229). -/
def extractJsonSource (response : String) : Option (List Char) :=
  let jsonContent :=
    match scanCodeBlock response.data with
    | some body => jsTrimList body
    | none => response.data
  sliceFirstLastBraces jsonContent

/-- Drop everything through the closing fence of an (already opened) code
block; `none` when no closing fence exists. -/
def dropThroughFence (cs : List Char) : Option (List Char) :=
  match cs with
  | [] => none
  | c :: rest =>
    if listStartsWith fence (c :: rest) then some ((c :: rest).drop 3)
    else dropThroughFence rest

/-- Global removal `/```[\s\S]*?```/g` (agent.ts:264); fuelled by input
length (each removed region is nonempty). -/
def removeCodeBlocksF : Nat → List Char → List Char
  | 0, cs => cs
  | fuel + 1, cs =>
    match cs with
    | [] => []
    | c :: rest =>
      if listStartsWith fence (c :: rest) then
        match dropThroughFence ((c :: rest).drop 3) with
        | some rest' => removeCodeBlocksF fuel rest'
        | none => c :: rest
      else c :: removeCodeBlocksF fuel rest

/-- Drop everything through the next right brace; `none` when there is
none. -/
def dropThroughRbrace (cs : List Char) : Option (List Char) :=
  match cs with
  | [] => none
  | c :: rest => if c = rbrace then some rest else dropThroughRbrace rest

/-- Global removal `/\{[\s\S]*?\}/g` (agent.ts:267): lazy, so each match
runs from a left brace to the nearest following right brace. -/
def removeBraceRegionsF : Nat → List Char → List Char
  | 0, cs => cs
  | fuel + 1, cs =>
    match cs with
    | [] => []
    | c :: rest =>
      if c = lbrace then
        match dropThroughRbrace rest with
        | some rest' => removeBraceRegionsF fuel rest'
        | none => c :: rest
      else c :: removeBraceRegionsF fuel rest

/-- Embedding of `Agent.extractPlainText` (agent.ts:262-278): strip fenced code blocks,
strip brace regions, trim; fall back to a fixed sentence when nothing
remains. -/
def Agent.extractPlainText (response : String) : String :=
  let t1 := removeCodeBlocksF (response.data.length + 1) response.data
  let t2 := removeBraceRegionsF (t1.length + 1) t1
  let t : String := ⟨jsTrimList t2⟩
  if t = "" then "I\x27ve processed your request." else t

/-- Longest prefix of JavaScript non-whitespace, with the rest. -/
def spanNonWs (cs : List Char) : List Char × List Char :=
  match cs with
  | [] => ([], [])
  | c :: rest =>
    if isJsWsChar c then ([], c :: rest)
    else
      let (run, rest') := spanNonWs rest
      (c :: run, rest')

/-- Longest prefix of JavaScript whitespace, with the rest. -/
def spanWs (cs : List Char) : List Char × List Char :=
  match cs with
  | [] => ([], [])
  | c :: rest =>
    if isJsWsChar c then
      let (run, rest') := spanWs rest
      (c :: run, rest')
    else ([], c :: rest)

/-- Embedding of `text.split(/(\s+)/)` (agent.ts:312): alternating word and whitespace
tokens, keeping the (possibly empty) word tokens at both ends; fuelled by
input length (every whitespace run consumed is nonempty). -/
def jsSplitKeepWsF : Nat → List Char → List String
  | 0, _ => []
  | fuel + 1, cs =>
    let (word, rest) := spanNonWs cs
    match rest with
    | [] => [⟨word⟩]
    | _ =>
      let (run, rest') := spanWs rest
      (⟨word⟩ : String) :: (⟨run⟩ : String) :: jsSplitKeepWsF fuel rest'

/-- Embedding of `text.split(/(\s+)/)` on a `String`. -/
def jsSplitKeepWs (s : String) : List String :=
  jsSplitKeepWsF (s.data.length + 1) s.data

/-! ## Stream helper (`src/server/src/utils/stream-helper.ts`) -/

/-- The `StreamHelper` state: the closed flag and the events written to
the wire while open, in order. -/
structure StreamHelper where
  closed : Bool
  sent : List StreamEvent

/-- Embedding of `StreamHelper.sendEvent` (lines 26-33): a no-op once closed. -/
def StreamHelper.sendEvent (h : StreamHelper) (e : StreamEvent) : StreamHelper :=
  if h.closed then h else { h with sent := h.sent ++ [e] }

/-- Embedding of `StreamHelper.close` (lines 78-83). -/
def StreamHelper.close (h : StreamHelper) : StreamHelper :=
  { h with closed := true }

/-- Embedding of `StreamHelper.sendTextDelta`. -/
def StreamHelper.sendTextDelta (h : StreamHelper) (content : String) : StreamHelper :=
  h.sendEvent (.textDelta content)

/-- Embedding of `StreamHelper.sendWidget`. -/
def StreamHelper.sendWidget (h : StreamHelper) (w : WidgetBlock) : StreamHelper :=
  h.sendEvent (.widget w)

/-- Embedding of `StreamHelper.sendStatus`. -/
def StreamHelper.sendStatus (h : StreamHelper) (s : String) : StreamHelper :=
  h.sendEvent (.status s)

/-- Embedding of `StreamHelper.sendDone` (lines 59-62): emit `done`, then close. -/
def StreamHelper.sendDone (h : StreamHelper) : StreamHelper :=
  (h.sendEvent .done).close

/-- Embedding of `StreamHelper.sendError` (lines 67-73): emit `error`, then close. -/
def StreamHelper.sendError (h : StreamHelper) (message code : String) : StreamHelper :=
  (h.sendEvent (.error message code)).close

/-- Embedding of `StreamHelper.isClosed`. -/
def StreamHelper.isClosed (h : StreamHelper) : Bool := h.closed

/-! ## Response parser (`Agent.parseResponse`, agent.ts:217-257) -/

/-- The parsed LLM response as it exists at runtime
(`ParsedLLMResponse`, types/llm.ts declares `response : string`, but the
code assigns `parsed.response || ''` unchecked, so the runtime value can
be any truthy JSON value; the model therefore gives the field type
`Json`). -/
structure ParsedLLMResponse where
  thinking : Option Json
  toolCalls : Option (List ToolCall)
  response : Json
  widgets : Option (List Json)

/-- Render a runtime value used where a string id is expected
(`Map` keys are compared exactly; in every exercised input ids are
strings, for which this is the identity). -/
def coerceKeyString : Json → String
  | .str s => s
  | .num i => toString i
  | .bool b => if b then "true" else "false"
  | .null => "null"
  | .arr _ => ""
  | .obj _ => "[object Object]"

/-- Decode one element of a `tool_calls` array during the normalization
at agent.ts:235-239: `id: tc.id || mint`, `name: tc.name`,
`arguments: tc.arguments || {}`.  A `null` element makes the property
reads throw (`none`), which the surrounding `try` turns into the
plain-text fallback.  The minted id uses the element index in place of
`Date.now()`/`Math.random()` (deterministic; no claim reads the text).
A missing or non-string `name` is modelled as `""`, which — like the
JavaScript `undefined` — matches no registered tool. -/
def decodeNormalizedToolCall (idx : Nat) (j : Json) : Option ToolCall :=
  match j with
  | .null => none
  | _ =>
    some
      { id :=
          match j.get "id" with
          | some v => if jsTruthy v then coerceKeyString v else "tool-" ++ toString idx
          | none => "tool-" ++ toString idx
        name :=
          match j.get "name" with
          | some (.str s) => s
          | _ => ""
        arguments :=
          match j.get "arguments" with
          | some v => if jsTruthy v then v else .obj []
          | none => .obj [] }

/-- Decode a whole `tool_calls` array; `none` models a thrown error. -/
def decodeNormalizedToolCalls (idx : Nat) : List Json → Option (List ToolCall)
  | [] => some []
  | j :: rest =>
    match decodeNormalizedToolCall idx j with
    | none => none
    | some c => (decodeNormalizedToolCalls (idx + 1) rest).map (fun cs => c :: cs)

/-- Decode one element of an LLM-supplied `toolCalls` array, which the
code passes through without normalization: no id is minted, so a missing
id is the `undefined` key.  (A `null` element would in fact throw later,
inside `executeMany`, ending the turn with `AGENT_ERROR`; no claim
distinguishes that path, and the model treats it like the other
non-objects.) -/
def decodeCamelToolCall (j : Json) : ToolCall :=
  { id :=
      match j.get "id" with
      | some v => if jsTruthy v then coerceKeyString v else "undefined"
      | none => "undefined"
    name :=
      match j.get "name" with
      | some (.str s) => s
      | _ => ""
    arguments := (j.get "arguments").getD .null }

/-- The body of the `try` block of `Agent.parseResponse` after a
successful `JSON.parse` (agent.ts:231-247); `none` models a throw during
the `tool_calls` normalization (non-array value, or a `null` element),
which falls through to the plain-text fallback.  A truthy non-array
`toolCalls` value is modelled as absent — in JavaScript it would instead
crash inside `executeMany` with the same single-terminal-event outcome. -/
def normalizeParsed (j : Json) : Option ParsedLLMResponse :=
  let tc := j.get "tool_calls"
  let camel := j.get "toolCalls"
  let toolCalls? : Option (Option (List ToolCall)) :=
    if jsTruthyOpt tc && !jsTruthyOpt camel then
      match tc with
      | some (.arr elems) => (decodeNormalizedToolCalls 0 elems).map some
      | _ => none
    else
      match camel with
      | some (.arr elems) => some (some (elems.map decodeCamelToolCall))
      | _ => some none
  match toolCalls? with
  | none => none
  | some tcs =>
    some
      { thinking := j.get "thinking"
        toolCalls := tcs
        response :=
          match j.get "response" with
          | some v => if jsTruthy v then v else .str ""
          | none => .str ""
        widgets :=
          match j.get "widgets" with
          | some (.arr ws) => some ws
          | _ => none }

/-- Embedding of `Agent.parseResponse` (agent.ts:217-257): unwrap an optional fenced
block, slice from the first `{` to the last `}`, `JSON.parse`, normalize;
on any failure fall back to treating the whole response as plain text. -/
def Agent.parseResponse (response : String) : ParsedLLMResponse :=
  let fallback : ParsedLLMResponse :=
    { thinking := none, toolCalls := none, response := .str (jsTrim response), widgets := none }
  match extractJsonSource response with
  | none => fallback
  | some slice =>
    match jsonParse slice with
    | none => fallback
    | some j =>
      match normalizeParsed j with
      | none => fallback
      | some p => p

/-! ## Conversation store -/

/-- The conversation prune bound (`MaxHistoryEntries`, spec default 50). -/
def maxHistoryEntries : Nat := 50

/-- Modelled from the spec: the `ConversationManager`
(`src/server/src/context/conversation-memory.ts` is not part of the
sources; only its caller `agent.ts` is).  Per spec section 4.2, `Append`
appends an entry and prunes from the front until the length is at most
`MaxHistoryEntries`; entries are reduced to their role and content (the
wall-clock timestamp is never observed by the orchestrator). -/
def ConversationManager.append (conv : List LLMMessage) (role content : String) :
    List LLMMessage :=
  let conv' := conv ++ [{ role := role, content := content, toolCallId := none }]
  conv'.drop (conv'.length - maxHistoryEntries)

/-- Modelled from the spec: `ConversationManager.addUserMessage`
(missing source file, see `ConversationManager.append`). -/
def ConversationManager.addUserMessage (conv : List LLMMessage) (content : String) :
    List LLMMessage :=
  ConversationManager.append conv "user" content

/-- Modelled from the spec: `ConversationManager.addAssistantMessage`
(missing source file, see `ConversationManager.append`). -/
def ConversationManager.addAssistantMessage (conv : List LLMMessage) (content : String) :
    List LLMMessage :=
  ConversationManager.append conv "assistant" content

/-- Modelled from the spec: `ConversationManager.getMessages` returns the
full ordered entry list (`All(id)` in spec section 4.2); the ten-entry
window is applied by the caller (`history.slice(-10)`, agent.ts:103). -/
def ConversationManager.getMessages (conv : List LLMMessage) : List LLMMessage := conv

/-! ## Agent orchestrator (`src/server/src/agent/agent.ts`) -/

/-- Embedding of `DEFAULT_MAX_TOOL_ITERATIONS` (agent.ts:26). -/
def DEFAULT_MAX_TOOL_ITERATIONS : Nat := 5

/-- Embedding of `AgentConfig` (agent.ts:20-24), reduced to the field the loop reads. -/
structure AgentConfig where
  maxToolIterations : Option Nat

/-- Embedding of `this.config.maxToolIterations || DEFAULT_MAX_TOOL_ITERATIONS`
(agent.ts:129); `0` is falsy in JavaScript. -/
def AgentConfig.maxIterations (config : AgentConfig) : Nat :=
  match config.maxToolIterations with
  | some n => if n = 0 then DEFAULT_MAX_TOOL_ITERATIONS else n
  | none => DEFAULT_MAX_TOOL_ITERATIONS

/-- The environment of one `processRequest` call: the LLM availability
probe, the built system prompt (`SystemPromptBuilder.build` output — free
text the loop never inspects), the chunk sequence the provider stream
yields on the n-th LLM invocation, the registered tools, and the
completion order of the parallel handler fan-out on each iteration (in
any real schedule `reorder i calls` is a permutation of `calls`). -/
structure AgentEnv where
  available : Bool
  systemPrompt : String
  streams : Nat → List StreamChunk
  registry : ToolRegistry
  reorder : Nat → List ToolCall → List ToolCall

/-- The orchestrator state threaded through one request: the stream
helper, the conversation entries of this conversation id, and two
observation fields — the message lists passed to each LLM invocation (in
order) and the widget-id counter. -/
structure AgentState where
  stream : StreamHelper
  conv : List LLMMessage
  llmRequests : List (List LLMMessage)
  widgetCounter : Nat

/-- Send a text delta. -/
def AgentState.textDelta (s : AgentState) (content : String) : AgentState :=
  { s with stream := s.stream.sendTextDelta content }

/-- Send a widget event. -/
def AgentState.widgetEvent (s : AgentState) (w : WidgetBlock) : AgentState :=
  { s with stream := s.stream.sendWidget w }

/-- Send a status event. -/
def AgentState.statusEvent (s : AgentState) (t : String) : AgentState :=
  { s with stream := s.stream.sendStatus t }

/-- Consume the provider stream as the `for await` loop at agent.ts:151-158
does: concatenate the `content` chunks, stop at the first `error` chunk
and resolve its message (`chunk.error || 'LLM error'`); `done` chunks
match neither branch. -/
def collectChunks : List StreamChunk → String × Option String
  | [] => ("", none)
  | .content c :: rest =>
    let (acc, e) := collectChunks rest
    (c ++ acc, e)
  | .done :: rest => collectChunks rest
  | .error e :: _ =>
    ("", some (match e with
      | some m => if m = "" then "LLM error" else m
      | none => "LLM error"))

/-- The outcome of the tool loop: a normal return, or a propagated
exception (with the state at the throw point) that `processRequest`
catches. -/
inductive LoopOutcome where
  | ok (s : AgentState)
  | thrown (s : AgentState) (msg : String)

/-- The state carried by an outcome. -/
def LoopOutcome.state : LoopOutcome → AgentState
  | .ok s => s
  | .thrown s _ => s

/-- Is the outcome a normal return? -/
def LoopOutcome.isOk : LoopOutcome → Bool
  | .ok _ => true
  | .thrown _ _ => false

/-- The message content built for one tool result
(agent.ts:292-301): `JSON.stringify({tool, success, data, error})` with
absent (`undefined`) fields omitted. -/
def mkToolResultMessage (call : ToolCall) (result : ToolResult) : LLMMessage :=
  { role := "tool"
    content := Json.stringify (.obj (
      [("tool", .str call.name), ("success", .bool result.success)]
      ++ (match result.data with | some d => [("data", d)] | none => [])
      ++ (match result.error with | some e => [("error", .str e)] | none => [])))
    toolCallId := some call.id }

/-- Embedding of `Agent.buildToolResultMessages` (agent.ts:283-306): one message per
call whose id is present in the result map. -/
def Agent.buildToolResultMessages (toolCalls : List ToolCall)
    (results : List (String × ToolResult)) : List LLMMessage :=
  toolCalls.filterMap (fun call =>
    (jsMapGet results call.id).map (mkToolResultMessage call))

/-- The apology streamed when the iteration cap is reached
(agent.ts:132-134). -/
def capApology : String :=
  "I apologize, but I encountered too many tool calls while processing your request. Please try rephrasing your question."

/-- The no-tool-calls tail of the loop body (agent.ts:194-211): resolve
`parsed.response || extractPlainText(fullResponse)`, stream it word by
word, emit any LLM-supplied widgets, append the assistant turn, emit
`done`.  A truthy non-string `response` value makes `text.split` throw
(`.thrown`), which `processRequest` turns into `AGENT_ERROR`. -/
def finalResponseStep (s : AgentState) (parsed : ParsedLLMResponse)
    (fullResponse : String) : LoopOutcome :=
  let responseText : Json :=
    if jsTruthy parsed.response then parsed.response
    else .str (Agent.extractPlainText fullResponse)
  match responseText with
  | .str txt =>
    let s := (jsSplitKeepWs txt).foldl AgentState.textDelta s
    let s :=
      match parsed.widgets with
      | some ws =>
        if 0 < ws.length then
          let wc := WidgetGenerator.parseFromLLMResponse ws s.widgetCounter
          { (wc.1.foldl AgentState.widgetEvent s) with widgetCounter := wc.2 }
        else s
      | none => s
    let s := { s with conv := ConversationManager.addAssistantMessage s.conv txt }
    .ok { s with stream := s.stream.sendDone }
  | _ => .thrown s "responseText.split is not a function"

/-- The recursion of `Agent.processWithToolLoop` (agent.ts:123-212),
structured on explicit fuel `maxIterations - iteration` (the source guard
`iteration >= maxIterations` is exactly fuel exhaustion at every call
site).  Each live iteration sends the status event, invokes the LLM
stream (recorded in `llmRequests`), and either surfaces a stream error as
`LLM_ERROR`, executes the parsed tool calls and recurses, or finishes via
`finalResponseStep`. -/
def Agent.loopAux (env : AgentEnv) (maxIterations : Nat) :
    Nat → Nat → List LLMMessage → AgentState → LoopOutcome
  | 0, _, _, s =>
    .ok { (s.textDelta capApology) with
      stream := (s.textDelta capApology).stream.sendDone }
  | fuel + 1, iteration, messages, s =>
    let s := s.statusEvent (if iteration = 0 then "Thinking..." else "Processing tool results...")
    let s := { s with llmRequests := s.llmRequests ++ [messages] }
    match collectChunks (env.streams iteration) with
    | (_, some e) => .ok { s with stream := s.stream.sendError e "LLM_ERROR" }
    | (fullResponse, none) =>
      let parsed := Agent.parseResponse fullResponse
      match parsed.toolCalls with
      | some tcs =>
        if 0 < tcs.length then
          let results := ToolExecutor.executeManyWithOrder env.registry (env.reorder iteration tcs)
          let toolWidgets := WidgetGenerator.generateFromToolResults results
          let s := toolWidgets.foldl AgentState.widgetEvent s
          let toolMessages := Agent.buildToolResultMessages tcs results
          let newMessages := messages
            ++ ({ role := "assistant", content := fullResponse, toolCallId := none } : LLMMessage)
            :: toolMessages
          Agent.loopAux env maxIterations fuel (iteration + 1) newMessages s
        else finalResponseStep s parsed fullResponse
      | none => finalResponseStep s parsed fullResponse

/-- Embedding of `Agent.processWithToolLoop` (agent.ts:123-212). -/
def Agent.processWithToolLoop (env : AgentEnv) (maxIterations : Nat)
    (messages : List LLMMessage) (iteration : Nat) (s : AgentState) : LoopOutcome :=
  Agent.loopAux env maxIterations (maxIterations - iteration) iteration messages s

/-- Embedding of `Agent.processRequest` (agent.ts:72-118).  An empty `messages` array
makes `lastMessage.role` throw, and that — like a `.thrown` loop outcome —
is caught and surfaced as `AGENT_ERROR`.  The user turn is recorded only
when the last turn is a user turn; there is no validation of that
condition.  `request.conversationId` only selects which conversation the
`conversation` argument denotes and is not otherwise observed. -/
def Agent.processRequest (env : AgentEnv) (config : AgentConfig)
    (request : ChatRequest) (conversation : List LLMMessage) : AgentState :=
  let s0 : AgentState :=
    { stream := ⟨false, []⟩, conv := conversation, llmRequests := [], widgetCounter := 0 }
  match request.messages.getLast? with
  | none =>
    { s0 with stream := s0.stream.sendError "Cannot read properties of undefined" "AGENT_ERROR" }
  | some lastMessage =>
    let s1 :=
      if lastMessage.role = "user" then
        { s0 with conv := ConversationManager.addUserMessage s0.conv lastMessage.content }
      else s0
    if env.available then
      let history := ConversationManager.getMessages s1.conv
      let messages :=
        ({ role := "system", content := env.systemPrompt, toolCallId := none } : LLMMessage)
        :: history.drop (history.length - 10)
      match Agent.processWithToolLoop env config.maxIterations messages 0 s1 with
      | .ok s => s
      | .thrown s m => { s with stream := s.stream.sendError m "AGENT_ERROR" }
    else
      { s1 with stream :=
          (s1.stream.sendError "LLM service is not available. Please ensure Ollama is running." "LLM_UNAVAILABLE") }

/-! ## Observations on the emitted event list -/

/-- Is an event terminal (`done` or `error`)? -/
def isTerminalEvent : StreamEvent → Bool
  | .done => true
  | .error _ _ => true
  | _ => false

/-- Number of terminal events in a list. -/
def terminalCount (es : List StreamEvent) : Nat := es.countP isTerminalEvent

/-- The widgets carried by the widget events of a list, in order. -/
def widgetEvents (es : List StreamEvent) : List WidgetBlock :=
  es.filterMap (fun e => match e with | .widget w => some w | _ => none)

/-- The codes carried by the error events of a list, in order. -/
def errorCodes (es : List StreamEvent) : List String :=
  es.filterMap (fun e => match e with | .error _ c => some c | _ => none)

/-- Substring test on character lists. -/
def listContainsSub (pat cs : List Char) : Bool :=
  match cs with
  | [] => pat.isEmpty
  | c :: rest => listStartsWith pat (c :: rest) || listContainsSub pat rest

/-- Case-sensitive substring test on strings. -/
def containsSub (hay pat : String) : Bool := listContainsSub pat.data hay.data

/-! ## Concrete scenario definitions (used by counterexamples and witnesses) -/

/-- A trivial concrete environment for witnesses. -/
def envTrivial : AgentEnv :=
  { available := true
    systemPrompt := ""
    streams := fun _ => []
    registry := ⟨[]⟩
    reorder := fun _ calls => calls }

/-- Concrete tools for the executor witnesses: one succeeding handler, one
throwing handler. -/
def okToolHandler : ToolHandler :=
  fun _ => .ok { success := true, data := some (.str "ok"), error := none, widgets := none }

/-- A handler that rejects. -/
def throwToolHandler : ToolHandler := fun _ => .error "boom"

/-- A registry with the two concrete tools. -/
def witnessRegistry : ToolRegistry :=
  ⟨[("t1", ⟨⟨"t1", "succeeds", .null, none⟩, okToolHandler⟩),
    ("bad", ⟨⟨"bad", "throws", .null, none⟩, throwToolHandler⟩)]⟩

/-- A first registration of the name `a`. -/
def c9InitialReg : ToolRegistry :=
  ToolRegistry.register ⟨[]⟩ ⟨"a", "first registration", .null, none⟩ okToolHandler

/-- The widgets a single tool result contributes
(`result.success && result.widgets` truthy). -/
def successWidgets (r : ToolResult) : List WidgetBlock :=
  match r.widgets with
  | some ws => if r.success then ws else []
  | none => []

/-- Tool widgets for the C1 scenario. -/
def c1WidgetA : WidgetBlock :=
  { id := "wa", widgetType := "email_preview", data := .null, actions := none, vdom := none }

/-- Second tool widget for the C1 scenario. -/
def c1WidgetB : WidgetBlock :=
  { id := "wb", widgetType := "email_preview", data := .null, actions := none, vdom := none }

/-- Registry for the C1 scenario: `t1` returns widget `wa`, `t2` returns
widget `wb`; both succeed. -/
def c1Registry : ToolRegistry :=
  ⟨[("t1", ⟨⟨"t1", "", .null, none⟩,
      fun _ => .ok { success := true, data := some .null, error := none, widgets := some [c1WidgetA] }⟩),
    ("t2", ⟨⟨"t2", "", .null, none⟩,
      fun _ => .ok { success := true, data := some .null, error := none, widgets := some [c1WidgetB] }⟩)]⟩

/-- The LLM output of the first iteration: two tool calls, `t1` before
`t2` in the emitted list. -/
def c1Raw : String :=
  "\x7b\"tool_calls\":[\x7b\"id\":\"a\",\"name\":\"t1\",\"arguments\":\x7b\x7d\x7d,\x7b\"id\":\"b\",\"name\":\"t2\",\"arguments\":\x7b\x7d\x7d],\"response\":\"\"\x7d"

/-- The LLM output of the second iteration: a plain final answer. -/
def plainFinalRaw : String := "\x7b\"response\":\"ok\"\x7d"

/-- Environment for the C1 scenario: on iteration 0 the handler of the
second call completes first (`reorder` reverses the batch). -/
def c1Env : AgentEnv :=
  { available := true
    systemPrompt := "S"
    streams := fun i => if i = 0 then [.content c1Raw] else [.content plainFinalRaw]
    registry := c1Registry
    reorder := fun i calls => if i = 0 then calls.reverse else calls }

/-- A minimal environment answering with a plain final response. -/
def plainEnv : AgentEnv :=
  { available := true
    systemPrompt := "S"
    streams := fun _ => [.content plainFinalRaw]
    registry := ⟨[]⟩
    reorder := fun _ calls => calls }

/-- Prior history for the C5 scenario. -/
def c5Conversation : List LLMMessage :=
  [⟨"user", "earlier question", none⟩, ⟨"assistant", "earlier answer", none⟩]

/-- The widget produced by the C4 search tool. -/
def c4Widget : WidgetBlock :=
  { id := "w-sum", widgetType := "email_preview", data := .null, actions := none, vdom := none }

/-- Registry for the C4 scenario. -/
def c4Registry : ToolRegistry :=
  ⟨[("search_emails", ⟨⟨"search_emails", "", .null, none⟩,
      fun _ => .ok { success := true, data := some .null, error := none, widgets := some [c4Widget] }⟩)]⟩

/-- First-iteration LLM output of the C4 scenario: one tool call. -/
def c4Raw : String :=
  "\x7b\"tool_calls\":[\x7b\"id\":\"s1\",\"name\":\"search_emails\",\"arguments\":\x7b\x7d\x7d],\"response\":\"\"\x7d"

/-- Environment for the C4 scenario. -/
def c4Env : AgentEnv :=
  { available := true
    systemPrompt := "S"
    streams := fun i => if i = 0 then [.content c4Raw] else [.content plainFinalRaw]
    registry := c4Registry
    reorder := fun _ calls => calls }

/-- A raw LLM output whose `response` field is an object. -/
def c6Raw : String := "\x7b\"response\":\x7b\"summary\":\"hi\"\x7d\x7d"

/-- The parsed JSON of the C6 scenario. -/
def c6Json : Json := .obj [("response", .obj [("summary", .str "hi")])]

/-- The parser output of the C6 scenario. -/
def c6Parsed : ParsedLLMResponse :=
  { thinking := none, toolCalls := none,
    response := .obj [("summary", .str "hi")], widgets := none }

/-! ## Basic lemmas about the stream helper and state operations -/

theorem sendEvent_of_closed (h : StreamHelper) (e : StreamEvent)
    (hc : h.closed = true) : h.sendEvent e = h := by
  simp [StreamHelper.sendEvent, hc]

theorem sendEvent_of_open (h : StreamHelper) (e : StreamEvent)
    (hc : h.closed = false) : h.sendEvent e = ⟨false, h.sent ++ [e]⟩ := by
  cases h with
  | mk closed sent => cases hc; simp [StreamHelper.sendEvent]

theorem sendDone_of_open (h : StreamHelper) (hc : h.closed = false) :
    h.sendDone = ⟨true, h.sent ++ [.done]⟩ := by
  simp [StreamHelper.sendDone, sendEvent_of_open h _ hc, StreamHelper.close]

theorem sendError_of_open (h : StreamHelper) (m c : String) (hc : h.closed = false) :
    h.sendError m c = ⟨true, h.sent ++ [.error m c]⟩ := by
  simp [StreamHelper.sendError, sendEvent_of_open h _ hc, StreamHelper.close]

theorem terminalCount_append (a b : List StreamEvent) :
    terminalCount (a ++ b) = terminalCount a + terminalCount b := by
  simp [terminalCount, List.countP_append]

theorem errorCodes_append (a b : List StreamEvent) :
    errorCodes (a ++ b) = errorCodes a ++ errorCodes b := by
  simp [errorCodes]

theorem widgetEvents_append (a b : List StreamEvent) :
    widgetEvents (a ++ b) = widgetEvents a ++ widgetEvents b := by
  simp [widgetEvents]

theorem terminalCount_textDeltas (ws : List String) :
    terminalCount (ws.map StreamEvent.textDelta) = 0 := by
  simp [terminalCount, List.countP_map, isTerminalEvent, Function.comp_def]

theorem terminalCount_widgets (ws : List WidgetBlock) :
    terminalCount (ws.map StreamEvent.widget) = 0 := by
  simp [terminalCount, List.countP_map, isTerminalEvent, Function.comp_def]

theorem errorCodes_textDeltas (ws : List String) :
    errorCodes (ws.map StreamEvent.textDelta) = [] := by
  simp [errorCodes, List.filterMap_map, Function.comp_def]

theorem errorCodes_widgets (ws : List WidgetBlock) :
    errorCodes (ws.map StreamEvent.widget) = [] := by
  simp [errorCodes, List.filterMap_map, Function.comp_def]

/-- Folding `textDelta` over an open stream appends the delta events and
leaves everything else unchanged. -/
theorem foldl_textDelta_spec (ws : List String) (s : AgentState)
    (hc : s.stream.closed = false) :
    (ws.foldl AgentState.textDelta s).stream.closed = false ∧
    (ws.foldl AgentState.textDelta s).stream.sent
      = s.stream.sent ++ ws.map StreamEvent.textDelta ∧
    (ws.foldl AgentState.textDelta s).conv = s.conv ∧
    (ws.foldl AgentState.textDelta s).llmRequests = s.llmRequests ∧
    (ws.foldl AgentState.textDelta s).widgetCounter = s.widgetCounter := by
  induction ws generalizing s with
  | nil => simp [hc]
  | cons w rest ih =>
    have hstep : (AgentState.textDelta s w).stream = ⟨false, s.stream.sent ++ [.textDelta w]⟩ := by
      simp [AgentState.textDelta, StreamHelper.sendTextDelta, sendEvent_of_open _ _ hc]
    have h2 : (AgentState.textDelta s w).stream.closed = false := by rw [hstep]
    obtain ⟨c1, c2, c3, c4, c5⟩ := ih (AgentState.textDelta s w) h2
    simp only [List.foldl_cons, List.map_cons]
    refine ⟨c1, ?_, ?_, ?_, ?_⟩
    · rw [c2, hstep]; simp
    · rw [c3]; rfl
    · rw [c4]; rfl
    · rw [c5]; rfl

/-- Folding `widgetEvent` over an open stream appends the widget events
and leaves everything else unchanged. -/
theorem foldl_widgetEvent_spec (ws : List WidgetBlock) (s : AgentState)
    (hc : s.stream.closed = false) :
    (ws.foldl AgentState.widgetEvent s).stream.closed = false ∧
    (ws.foldl AgentState.widgetEvent s).stream.sent
      = s.stream.sent ++ ws.map StreamEvent.widget ∧
    (ws.foldl AgentState.widgetEvent s).conv = s.conv ∧
    (ws.foldl AgentState.widgetEvent s).llmRequests = s.llmRequests ∧
    (ws.foldl AgentState.widgetEvent s).widgetCounter = s.widgetCounter := by
  induction ws generalizing s with
  | nil => simp [hc]
  | cons w rest ih =>
    have hstep : (AgentState.widgetEvent s w).stream = ⟨false, s.stream.sent ++ [.widget w]⟩ := by
      simp [AgentState.widgetEvent, StreamHelper.sendWidget, sendEvent_of_open _ _ hc]
    have h2 : (AgentState.widgetEvent s w).stream.closed = false := by rw [hstep]
    obtain ⟨c1, c2, c3, c4, c5⟩ := ih (AgentState.widgetEvent s w) h2
    simp only [List.foldl_cons, List.map_cons]
    refine ⟨c1, ?_, ?_, ?_, ?_⟩
    · rw [c2, hstep]; simp
    · rw [c3]; rfl
    · rw [c4]; rfl
    · rw [c5]; rfl

/-- Emitting a final text plus optional LLM widgets plus `done` on an open
stream: the events appended are word deltas, widget events and one `done`;
no error event; `llmRequests` untouched. -/
theorem finalEmit_spec (s : AgentState) (parsed : ParsedLLMResponse) (txt : String)
    (hc : s.stream.closed = false) :
    ∃ s' t,
      (let s1 := (jsSplitKeepWs txt).foldl AgentState.textDelta s
       let s2 := match parsed.widgets with
         | some ws =>
           if 0 < ws.length then
             let wc := WidgetGenerator.parseFromLLMResponse ws s1.widgetCounter
             { (wc.1.foldl AgentState.widgetEvent s1) with widgetCounter := wc.2 }
           else s1
         | none => s1
       let s3 := { s2 with conv := ConversationManager.addAssistantMessage s2.conv txt }
       LoopOutcome.ok { s3 with stream := s3.stream.sendDone })
      = .ok s' ∧
      s'.stream.sent = s.stream.sent ++ t ∧ terminalCount t = 1 ∧
      errorCodes t = [] ∧ s'.stream.closed = true ∧
      s'.llmRequests = s.llmRequests := by
  obtain ⟨d1, d2, d3, d4, d5⟩ := foldl_textDelta_spec (jsSplitKeepWs txt) s hc
  rcases hpw : parsed.widgets with _ | ws
  · simp only [hpw]
    refine ⟨_, (jsSplitKeepWs txt).map StreamEvent.textDelta ++ [.done], rfl, ?_, ?_, ?_, ?_, ?_⟩
    · simp only [sendDone_of_open _ d1, d2, List.append_assoc]
    · simp [terminalCount_append, terminalCount_textDeltas, terminalCount, isTerminalEvent]
    · simp [errorCodes_append, errorCodes_textDeltas, errorCodes]
    · simp [sendDone_of_open _ d1]
    · exact d4
  · simp only [hpw]
    by_cases hlen : 0 < ws.length
    · simp only [if_pos hlen]
      obtain ⟨w1, w2, w3, w4, w5⟩ :=
        foldl_widgetEvent_spec
          (WidgetGenerator.parseFromLLMResponse ws ((jsSplitKeepWs txt).foldl AgentState.textDelta s).widgetCounter).1
          ((jsSplitKeepWs txt).foldl AgentState.textDelta s) d1
      refine ⟨_, (jsSplitKeepWs txt).map StreamEvent.textDelta
          ++ ((WidgetGenerator.parseFromLLMResponse ws ((jsSplitKeepWs txt).foldl AgentState.textDelta s).widgetCounter).1.map StreamEvent.widget)
          ++ [.done], rfl, ?_, ?_, ?_, ?_, ?_⟩
      · simp only [sendDone_of_open _ w1, w2, d2, List.append_assoc]
      · simp [terminalCount_append, terminalCount, List.countP_map, Function.comp_def,
          isTerminalEvent, List.countP_cons]
      · simp [errorCodes_append, errorCodes_textDeltas, errorCodes_widgets, errorCodes]
      · simp [sendDone_of_open _ w1]
      · rw [w4]; exact d4
    · simp only [if_neg hlen]
      refine ⟨_, (jsSplitKeepWs txt).map StreamEvent.textDelta ++ [.done], rfl, ?_, ?_, ?_, ?_, ?_⟩
      · simp only [sendDone_of_open _ d1, d2, List.append_assoc]
      · simp [terminalCount_append, terminalCount_textDeltas, terminalCount, isTerminalEvent]
      · simp [errorCodes_append, errorCodes_textDeltas, errorCodes]
      · simp [sendDone_of_open _ d1]
      · exact d4

/-- The no-tool-calls tail either appends word deltas, optional widget
events and a single `done` to an open stream (closing it), or throws with
the state unchanged; it never touches `llmRequests` and never emits an
error event. -/
theorem finalResponseStep_spec (s : AgentState) (parsed : ParsedLLMResponse)
    (full : String) (hc : s.stream.closed = false) :
    (∃ s' t, finalResponseStep s parsed full = .ok s' ∧
       s'.stream.sent = s.stream.sent ++ t ∧ terminalCount t = 1 ∧
       errorCodes t = [] ∧ s'.stream.closed = true ∧
       s'.llmRequests = s.llmRequests)
    ∨ finalResponseStep s parsed full
        = .thrown s "responseText.split is not a function" := by
  unfold finalResponseStep
  by_cases hr : jsTruthy parsed.response
  · simp only [if_pos hr]
    cases hresp : parsed.response with
    | str txt =>
      left
      obtain ⟨s', t, heq, p1, p2, p3, p4, p5⟩ := finalEmit_spec s parsed txt hc
      exact ⟨s', t, heq, p1, p2, p3, p4, p5⟩
    | null => right; rfl
    | bool b => right; rfl
    | num i => right; rfl
    | arr xs => right; rfl
    | obj fs => right; rfl
  · simp only [if_neg hr]
    left
    obtain ⟨s', t, heq, p1, p2, p3, p4, p5⟩ :=
      finalEmit_spec s parsed (Agent.extractPlainText full) hc
    exact ⟨s', t, heq, p1, p2, p3, p4, p5⟩

theorem sendDone_mk (l : List StreamEvent) :
    (StreamHelper.mk false l).sendDone = ⟨true, l ++ [.done]⟩ := by
  simp [StreamHelper.sendDone, StreamHelper.sendEvent, StreamHelper.close]

theorem sendError_mk (l : List StreamEvent) (m c : String) :
    (StreamHelper.mk false l).sendError m c = ⟨true, l ++ [.error m c]⟩ := by
  simp [StreamHelper.sendError, StreamHelper.sendEvent, StreamHelper.close]

theorem errorCodes_status (st : String) : errorCodes [StreamEvent.status st] = [] := rfl

theorem terminalCount_status (st : String) : terminalCount [StreamEvent.status st] = 0 := rfl

/-- Main loop invariant: started on an open stream, the loop either
returns normally — having appended events with exactly one terminal event
and only `LLM_ERROR` error codes, and closed the stream — or propagates a
throw with the stream still open, no terminal event appended and no error
event appended.  At most `fuel` further LLM invocations are recorded. -/
theorem loopAux_spec (env : AgentEnv) (maxIter : Nat) :
    ∀ (fuel iteration : Nat) (messages : List LLMMessage) (s : AgentState),
      s.stream.closed = false →
      (∃ s' t r, Agent.loopAux env maxIter fuel iteration messages s = .ok s' ∧
         s'.stream.sent = s.stream.sent ++ t ∧ terminalCount t = 1 ∧
         (∀ c ∈ errorCodes t, c = "LLM_ERROR") ∧
         s'.stream.closed = true ∧
         s'.llmRequests = s.llmRequests ++ r ∧ r.length ≤ fuel)
      ∨ (∃ s' m t r, Agent.loopAux env maxIter fuel iteration messages s = .thrown s' m ∧
         s'.stream.sent = s.stream.sent ++ t ∧ terminalCount t = 0 ∧
         errorCodes t = [] ∧ s'.stream.closed = false ∧
         s'.llmRequests = s.llmRequests ++ r ∧ r.length ≤ fuel) := by
  intro fuel
  induction fuel with
  | zero =>
    intro iteration messages s hc
    left
    have hstep : (s.textDelta capApology).stream
        = ⟨false, s.stream.sent ++ [.textDelta capApology]⟩ := by
      simp [AgentState.textDelta, StreamHelper.sendTextDelta, sendEvent_of_open _ _ hc]
    refine ⟨_, [.textDelta capApology, .done], [], rfl, ?_, ?_, ?_, ?_, ?_, ?_⟩
    · show ((s.textDelta capApology).stream.sendDone).sent = _
      rw [hstep, sendDone_mk]; simp
    · simp [terminalCount, List.countP_cons, isTerminalEvent]
    · simp [errorCodes]
    · show ((s.textDelta capApology).stream.sendDone).closed = true
      rw [hstep, sendDone_mk]
    · simp [Agent.loopAux, AgentState.textDelta]
    · simp
  | succ fuel ih =>
    intro iteration messages s hc
    have hstat : (s.statusEvent (if iteration = 0 then "Thinking..." else "Processing tool results...")).stream
        = ⟨false, s.stream.sent ++ [.status (if iteration = 0 then "Thinking..." else "Processing tool results...")]⟩ := by
      simp [AgentState.statusEvent, StreamHelper.sendStatus, sendEvent_of_open _ _ hc]
    set st := (if iteration = 0 then "Thinking..." else "Processing tool results...") with hst
    set sR : AgentState :=
      { (s.statusEvent st) with
        llmRequests := (s.statusEvent st).llmRequests ++ [messages] } with hsR
    have hR1 : sR.stream = ⟨false, s.stream.sent ++ [.status st]⟩ := by
      rw [hsR]; exact hstat
    have hRopen : sR.stream.closed = false := by rw [hR1]
    have hR2 : sR.llmRequests = s.llmRequests ++ [messages] := by
      rw [hsR]; simp [AgentState.statusEvent]
    have hunfold : Agent.loopAux env maxIter (fuel + 1) iteration messages s
        = (match collectChunks (env.streams iteration) with
          | (_, some e) => .ok { sR with stream := sR.stream.sendError e "LLM_ERROR" }
          | (fullResponse, none) =>
            let parsed := Agent.parseResponse fullResponse
            match parsed.toolCalls with
            | some tcs =>
              if 0 < tcs.length then
                let results := ToolExecutor.executeManyWithOrder env.registry (env.reorder iteration tcs)
                let toolWidgets := WidgetGenerator.generateFromToolResults results
                let s2 := toolWidgets.foldl AgentState.widgetEvent sR
                let toolMessages := Agent.buildToolResultMessages tcs results
                let newMessages := messages
                  ++ ({ role := "assistant", content := fullResponse, toolCallId := none } : LLMMessage)
                  :: toolMessages
                Agent.loopAux env maxIter fuel (iteration + 1) newMessages s2
              else finalResponseStep sR parsed fullResponse
            | none => finalResponseStep sR parsed fullResponse) := rfl
    rw [hunfold]
    rcases hcc : collectChunks (env.streams iteration) with ⟨full, err⟩
    rcases err with _ | e
    · -- no stream error
      dsimp only
      rcases hpt : (Agent.parseResponse full).toolCalls with _ | tcs
      · -- no tool calls: final response
        simp only [hpt]
        rcases finalResponseStep_spec sR (Agent.parseResponse full) full hRopen with
          ⟨s', t, heq, p1, p2, p3, p4, p5⟩ | hthr
        · left
          refine ⟨s', [.status st] ++ t, [messages], heq, ?_, ?_, ?_, p4, ?_, ?_⟩
          · rw [p1, hR1]; simp
          · rw [terminalCount_append, terminalCount_status, p2]
          · intro c hcmem
            rw [errorCodes_append, errorCodes_status, p3] at hcmem
            simp at hcmem
          · rw [p5, hR2]
          · simp
        · right
          refine ⟨sR, _, [.status st], [messages], hthr, ?_, ?_, ?_, hRopen, hR2, ?_⟩
          · rw [hR1]
          · exact terminalCount_status st
          · exact errorCodes_status st
          · simp
      · -- tool calls parsed
        simp only [hpt]
        by_cases hlen : 0 < tcs.length
        · simp only [if_pos hlen]
          set toolWidgets := WidgetGenerator.generateFromToolResults
            (ToolExecutor.executeManyWithOrder env.registry (env.reorder iteration tcs)) with htw
          obtain ⟨f1, f2, f3, f4, f5⟩ := foldl_widgetEvent_spec toolWidgets sR hRopen
          set s2 := toolWidgets.foldl AgentState.widgetEvent sR with hs2
          rcases ih (iteration + 1)
              (messages ++ ({ role := "assistant", content := full, toolCallId := none } : LLMMessage)
                :: Agent.buildToolResultMessages tcs
                  (ToolExecutor.executeManyWithOrder env.registry (env.reorder iteration tcs)))
              s2 f1 with
            ⟨s', t, r, heq, p1, p2, p3, p4, p5, p6⟩ | ⟨s', m, t, r, heq, p1, p2, p3, p4, p5, p6⟩
          · left
            refine ⟨s', [.status st] ++ toolWidgets.map StreamEvent.widget ++ t,
              [messages] ++ r, heq, ?_, ?_, ?_, p4, ?_, ?_⟩
            · rw [p1, f2, hR1]; simp
            · rw [terminalCount_append, terminalCount_append, terminalCount_status,
                terminalCount_widgets, p2]
            · intro c hcmem
              rw [errorCodes_append, errorCodes_append, errorCodes_status,
                errorCodes_widgets] at hcmem
              simp only [List.nil_append] at hcmem
              exact p3 c hcmem
            · rw [p5, f4, hR2]; simp
            · simpa using Nat.add_le_add_left p6 1
          · right
            refine ⟨s', m, [.status st] ++ toolWidgets.map StreamEvent.widget ++ t,
              [messages] ++ r, heq, ?_, ?_, ?_, p4, ?_, ?_⟩
            · rw [p1, f2, hR1]; simp
            · rw [terminalCount_append, terminalCount_append, terminalCount_status,
                terminalCount_widgets, p2]
            · rw [errorCodes_append, errorCodes_append, errorCodes_status,
                errorCodes_widgets, p3]
              rfl
            · rw [p5, f4, hR2]; simp
            · simpa using Nat.add_le_add_left p6 1
        · simp only [if_neg hlen]
          rcases finalResponseStep_spec sR (Agent.parseResponse full) full hRopen with
            ⟨s', t, heq, p1, p2, p3, p4, p5⟩ | hthr
          · left
            refine ⟨s', [.status st] ++ t, [messages], heq, ?_, ?_, ?_, p4, ?_, ?_⟩
            · rw [p1, hR1]; simp
            · rw [terminalCount_append, terminalCount_status, p2]
            · intro c hcmem
              rw [errorCodes_append, errorCodes_status, p3] at hcmem
              simp at hcmem
            · rw [p5, hR2]
            · simp
          · right
            refine ⟨sR, _, [.status st], [messages], hthr, ?_, ?_, ?_, hRopen, hR2, ?_⟩
            · rw [hR1]
            · exact terminalCount_status st
            · exact errorCodes_status st
            · simp
    · -- stream error chunk
      dsimp only
      left
      refine ⟨_, [.status st, .error e "LLM_ERROR"], [messages], rfl, ?_, ?_, ?_, ?_, ?_, ?_⟩
      · show (sR.stream.sendError e "LLM_ERROR").sent = _
        rw [hR1, sendError_mk]; simp
      · simp [terminalCount, List.countP_cons, isTerminalEvent]
      · intro c hcmem
        simp [errorCodes] at hcmem
        exact hcmem
      · show (sR.stream.sendError e "LLM_ERROR").closed = true
        rw [hR1, sendError_mk]
      · exact hR2
      · simp

/-- The value `config.maxToolIterations || DEFAULT` is always at least one. -/
theorem maxIterations_pos (config : AgentConfig) : 1 ≤ config.maxIterations := by
  rcases config with ⟨_ | n⟩
  · simp [AgentConfig.maxIterations, DEFAULT_MAX_TOOL_ITERATIONS]
  · by_cases h : n = 0 <;>
      simp [AgentConfig.maxIterations, DEFAULT_MAX_TOOL_ITERATIONS, h] <;> omega

/-- Request-level invariant: every `processRequest` run writes exactly one
terminal event, closes the stream, records at most `maxIterations` LLM
invocations, and only ever uses the codes `LLM_ERROR`, `AGENT_ERROR` and
`LLM_UNAVAILABLE` on error events. -/
theorem processRequest_spec (env : AgentEnv) (config : AgentConfig)
    (request : ChatRequest) (conversation : List LLMMessage) :
    terminalCount (Agent.processRequest env config request conversation).stream.sent = 1 ∧
    (Agent.processRequest env config request conversation).stream.closed = true ∧
    (Agent.processRequest env config request conversation).llmRequests.length
      ≤ config.maxIterations ∧
    (∀ c ∈ errorCodes (Agent.processRequest env config request conversation).stream.sent,
      c = "LLM_ERROR" ∨ c = "AGENT_ERROR" ∨ c = "LLM_UNAVAILABLE") := by
  unfold Agent.processRequest
  rcases hlast : request.messages.getLast? with _ | lastMessage
  · dsimp only
    rw [sendError_mk]
    refine ⟨?_, ?_, ?_, ?_⟩
    · simp [terminalCount, List.countP_cons, isTerminalEvent]
    · rfl
    · simpa using Nat.le_trans (Nat.zero_le 1) (maxIterations_pos config)
    · intro c hcmem
      simp [errorCodes] at hcmem
      simp [hcmem]
  · dsimp only
    set s1 : AgentState :=
      (if lastMessage.role = "user" then
        { (⟨⟨false, []⟩, conversation, [], 0⟩ : AgentState) with
          conv := ConversationManager.addUserMessage conversation lastMessage.content }
      else (⟨⟨false, []⟩, conversation, [], 0⟩ : AgentState)) with hs1
    have hs1stream : s1.stream = ⟨false, []⟩ := by
      rw [hs1]; by_cases h : lastMessage.role = "user" <;> simp [h]
    have hs1open : s1.stream.closed = false := by rw [hs1stream]
    have hs1req : s1.llmRequests = [] := by
      rw [hs1]; by_cases h : lastMessage.role = "user" <;> simp [h]
    by_cases hav : env.available
    · simp only [hav, if_true]
      rcases loopAux_spec env config.maxIterations (config.maxIterations - 0) 0
          (({ role := "system", content := env.systemPrompt, toolCallId := none } : LLMMessage)
            :: (ConversationManager.getMessages s1.conv).drop
              ((ConversationManager.getMessages s1.conv).length - 10)) s1 hs1open with
        ⟨s', t, r, heq, p1, p2, p3, p4, p5, p6⟩ | ⟨s', m, t, r, heq, p1, p2, p3, p4, p5, p6⟩
      · rw [show Agent.processWithToolLoop env config.maxIterations
            (({ role := "system", content := env.systemPrompt, toolCallId := none } : LLMMessage)
              :: (ConversationManager.getMessages s1.conv).drop
                ((ConversationManager.getMessages s1.conv).length - 10)) 0 s1
            = Agent.loopAux env config.maxIterations (config.maxIterations - 0) 0 _ s1 from rfl,
          heq]
        refine ⟨?_, p4, ?_, ?_⟩
        · rw [p1, hs1stream]; simpa using p2
        · rw [p5, hs1req]; simpa using p6
        · intro c hcmem
          rw [p1, hs1stream] at hcmem
          simp at hcmem
          exact Or.inl (p3 c hcmem)
      · rw [show Agent.processWithToolLoop env config.maxIterations
            (({ role := "system", content := env.systemPrompt, toolCallId := none } : LLMMessage)
              :: (ConversationManager.getMessages s1.conv).drop
                ((ConversationManager.getMessages s1.conv).length - 10)) 0 s1
            = Agent.loopAux env config.maxIterations (config.maxIterations - 0) 0 _ s1 from rfl,
          heq]
        dsimp only
        rw [sendError_of_open _ _ _ p4]
        refine ⟨?_, rfl, ?_, ?_⟩
        · rw [p1, hs1stream]
          simp only [List.nil_append, terminalCount_append, p2]
          simp [terminalCount, List.countP_cons, isTerminalEvent]
        · rw [p5, hs1req]; simpa using p6
        · intro c hcmem
          rw [errorCodes_append, p1, hs1stream] at hcmem
          simp only [List.nil_append] at hcmem
          rw [p3] at hcmem
          simp [errorCodes] at hcmem
          simp [hcmem]
    · simp only [hav, if_false]
      rw [hs1stream, sendError_mk]
      refine ⟨?_, ?_, ?_, ?_⟩
      · simp [terminalCount, List.countP_cons, isTerminalEvent]
      · rfl
      · rw [hs1req]; simpa using Nat.le_trans (Nat.zero_le 1) (maxIterations_pos config)
      · intro c hcmem
        simp [errorCodes] at hcmem
        simp [hcmem]

/-- Any live loop entry records `messages` as the next LLM invocation
before anything else. -/
theorem loopAux_first_request (env : AgentEnv) (maxIter fuel iteration : Nat)
    (messages : List LLMMessage) (s : AgentState) (hc : s.stream.closed = false) :
    ∃ r, (Agent.loopAux env maxIter (fuel + 1) iteration messages s).state.llmRequests
      = s.llmRequests ++ [messages] ++ r := by
  set st := (if iteration = 0 then "Thinking..." else "Processing tool results...") with hst
  set sR : AgentState :=
    { (s.statusEvent st) with
      llmRequests := (s.statusEvent st).llmRequests ++ [messages] } with hsR
  have hR1 : sR.stream = ⟨false, s.stream.sent ++ [.status st]⟩ := by
    rw [hsR]
    simp [AgentState.statusEvent, StreamHelper.sendStatus, sendEvent_of_open _ _ hc]
  have hRopen : sR.stream.closed = false := by rw [hR1]
  have hR2 : sR.llmRequests = s.llmRequests ++ [messages] := by
    rw [hsR]; simp [AgentState.statusEvent]
  have hunfold : Agent.loopAux env maxIter (fuel + 1) iteration messages s
      = (match collectChunks (env.streams iteration) with
        | (_, some e) => .ok { sR with stream := sR.stream.sendError e "LLM_ERROR" }
        | (fullResponse, none) =>
          let parsed := Agent.parseResponse fullResponse
          match parsed.toolCalls with
          | some tcs =>
            if 0 < tcs.length then
              let results := ToolExecutor.executeManyWithOrder env.registry (env.reorder iteration tcs)
              let toolWidgets := WidgetGenerator.generateFromToolResults results
              let s2 := toolWidgets.foldl AgentState.widgetEvent sR
              let toolMessages := Agent.buildToolResultMessages tcs results
              let newMessages := messages
                ++ ({ role := "assistant", content := fullResponse, toolCallId := none } : LLMMessage)
                :: toolMessages
              Agent.loopAux env maxIter fuel (iteration + 1) newMessages s2
            else finalResponseStep sR parsed fullResponse
          | none => finalResponseStep sR parsed fullResponse) := rfl
  rw [hunfold]
  rcases hcc : collectChunks (env.streams iteration) with ⟨full, err⟩
  rcases err with _ | e
  · dsimp only
    rcases hpt : (Agent.parseResponse full).toolCalls with _ | tcs
    · simp only [hpt]
      rcases finalResponseStep_spec sR (Agent.parseResponse full) full hRopen with
        ⟨s', t, heq, _, _, _, _, p5⟩ | hthr
      · exact ⟨[], by rw [heq]; simpa [LoopOutcome.state, p5] using hR2⟩
      · exact ⟨[], by rw [hthr]; simpa [LoopOutcome.state] using hR2⟩
    · simp only [hpt]
      by_cases hlen : 0 < tcs.length
      · simp only [if_pos hlen]
        set toolWidgets := WidgetGenerator.generateFromToolResults
          (ToolExecutor.executeManyWithOrder env.registry (env.reorder iteration tcs)) with htw
        obtain ⟨f1, _, _, f4, _⟩ := foldl_widgetEvent_spec toolWidgets sR hRopen
        set s2 := toolWidgets.foldl AgentState.widgetEvent sR with hs2
        rcases loopAux_spec env maxIter fuel (iteration + 1)
            (messages ++ ({ role := "assistant", content := full, toolCallId := none } : LLMMessage)
              :: Agent.buildToolResultMessages tcs
                (ToolExecutor.executeManyWithOrder env.registry (env.reorder iteration tcs)))
            s2 f1 with
          ⟨s', t, r, heq, _, _, _, _, p5, _⟩ | ⟨s', m, t, r, heq, _, _, _, _, p5, _⟩
        · refine ⟨r, ?_⟩
          rw [heq]
          show s'.llmRequests = _
          rw [p5, f4, hR2]
        · refine ⟨r, ?_⟩
          rw [heq]
          show s'.llmRequests = _
          rw [p5, f4, hR2]
      · simp only [if_neg hlen]
        rcases finalResponseStep_spec sR (Agent.parseResponse full) full hRopen with
          ⟨s', t, heq, _, _, _, _, p5⟩ | hthr
        · exact ⟨[], by rw [heq]; simpa [LoopOutcome.state, p5] using hR2⟩
        · exact ⟨[], by rw [hthr]; simpa [LoopOutcome.state] using hR2⟩
  · dsimp only
    exact ⟨[], by simpa [LoopOutcome.state] using hR2⟩

/-! ## Claim C2 -/

/-- C2: every `processRequest` invocation emits exactly one terminal event
on the stream — on every path (empty request, LLM unavailable, LLM stream
error, iteration cap, normal completion, internal exception) exactly one
`done` or `error` is written; the helper is closed afterwards, and a send
on a closed helper is a no-op, so a second terminal event can never be
written. -/
theorem c2_single_terminal_event (env : AgentEnv) (config : AgentConfig)
    (request : ChatRequest) (conversation : List LLMMessage) :
    terminalCount (Agent.processRequest env config request conversation).stream.sent = 1 ∧
    (Agent.processRequest env config request conversation).stream.closed = true ∧
    (∀ (h : StreamHelper) (e : StreamEvent), h.closed = true → h.sendEvent e = h) :=
  ⟨(processRequest_spec env config request conversation).1,
   (processRequest_spec env config request conversation).2.1,
   fun h e hc => sendEvent_of_closed h e hc⟩

/-! ## Claim C7 -/

/-- C7: per chat turn the LLM stream is invoked at most
`config.maxIterations` times (default 5); and entering the loop with the
iteration counter at `maxIterations` performs no further LLM call and
emits exactly the apology `text_delta` followed by `done` — no error
event. -/
theorem c7_iteration_cap :
    (∀ (env : AgentEnv) (config : AgentConfig) (request : ChatRequest)
        (conversation : List LLMMessage),
      (Agent.processRequest env config request conversation).llmRequests.length
        ≤ config.maxIterations) ∧
    AgentConfig.maxIterations ⟨none⟩ = 5 ∧
    (∀ (env : AgentEnv) (maxIterations : Nat) (messages : List LLMMessage) (s : AgentState),
      s.stream.closed = false →
      Agent.processWithToolLoop env maxIterations messages maxIterations s
        = .ok ⟨⟨true, s.stream.sent ++ [.textDelta capApology, .done]⟩,
            s.conv, s.llmRequests, s.widgetCounter⟩) := by
  refine ⟨fun env config request conversation =>
    (processRequest_spec env config request conversation).2.2.1, rfl, ?_⟩
  intro env maxIterations messages s hc
  unfold Agent.processWithToolLoop
  rw [Nat.sub_self]
  cases s with
  | mk stream conv llm wc =>
    cases stream with
    | mk closed sent =>
      cases closed with
      | false =>
        simp [Agent.loopAux, AgentState.textDelta, StreamHelper.sendTextDelta,
          StreamHelper.sendEvent, StreamHelper.sendDone, StreamHelper.close]
      | true => cases hc

/-- Witness for C7: the cap branch at a concrete state. -/
theorem c7_iteration_cap_witness :
    Agent.processWithToolLoop envTrivial 5 [] 5 ⟨⟨false, []⟩, [], [], 0⟩
      = .ok ⟨⟨true, [.textDelta capApology, .done]⟩, [], [], 0⟩ := by
  have h := c7_iteration_cap.2.2 envTrivial 5 [] ⟨⟨false, []⟩, [], [], 0⟩ rfl
  simpa using h

/-! ## Association-list lemmas (JavaScript `Map` semantics) -/

theorem jsMapGet_set_self (l : List (String × α)) (k : String) (v : α) :
    jsMapGet (jsMapSet l k v) k = some v := by
  induction l with
  | nil => simp [jsMapSet, jsMapGet]
  | cons p rest ih =>
    rcases p with ⟨k', v'⟩
    by_cases h : k' = k
    · simp [jsMapSet, jsMapGet, h]
    · simp [jsMapSet, jsMapGet, h, ih]

theorem jsMapGet_set_other (l : List (String × α)) (k k' : String) (v : α)
    (h : k ≠ k') : jsMapGet (jsMapSet l k v) k' = jsMapGet l k' := by
  induction l with
  | nil => simp [jsMapSet, jsMapGet, h]
  | cons p rest ih =>
    rcases p with ⟨k₀, v₀⟩
    by_cases h0 : k₀ = k
    · simp [jsMapSet, jsMapGet, h0, h]
    · simp only [jsMapSet, if_neg h0]
      by_cases h1 : k₀ = k'
      · simp [jsMapGet, h1]
      · simp [jsMapGet, h1, ih]

theorem jsMapSet_keys (l : List (String × α)) (k : String) (v : α) (k' : String) :
    k' ∈ (jsMapSet l k v).map Prod.fst ↔ k' = k ∨ k' ∈ l.map Prod.fst := by
  induction l with
  | nil => simp [jsMapSet]
  | cons p rest ih =>
    rcases p with ⟨k₀, v₀⟩
    by_cases h0 : k₀ = k
    · subst h0
      simp [jsMapSet]
    · simp only [jsMapSet, if_neg h0, List.map_cons, List.mem_cons, ih]
      tauto

theorem jsMapSet_keys_nodup (l : List (String × α)) (k : String) (v : α)
    (h : (l.map Prod.fst).Nodup) : ((jsMapSet l k v).map Prod.fst).Nodup := by
  induction l with
  | nil => simp [jsMapSet]
  | cons p rest ih =>
    rcases p with ⟨k₀, v₀⟩
    simp only [List.map_cons, List.nodup_cons] at h
    by_cases h0 : k₀ = k
    · subst h0
      simpa [jsMapSet, List.nodup_cons] using h
    · simp only [jsMapSet, if_neg h0, List.map_cons, List.nodup_cons]
      refine ⟨?_, ih h.2⟩
      intro hmem
      rw [jsMapSet_keys] at hmem
      rcases hmem with h1 | h1
      · exact h0 h1
      · exact h.1 h1

theorem jsMapSet_length_of_mem (l : List (String × α)) (k : String) (v : α)
    (h : k ∈ l.map Prod.fst) : (jsMapSet l k v).length = l.length := by
  induction l with
  | nil => simp at h
  | cons p rest ih =>
    rcases p with ⟨k₀, v₀⟩
    by_cases h0 : k₀ = k
    · simp [jsMapSet, h0]
    · simp only [List.map_cons, List.mem_cons] at h
      rcases h with h | h
      · exact absurd h.symm h0
      · simp [jsMapSet, h0, ih h]

theorem jsMapSet_length_of_not_mem (l : List (String × α)) (k : String) (v : α)
    (h : k ∉ l.map Prod.fst) : (jsMapSet l k v).length = l.length + 1 := by
  induction l with
  | nil => simp [jsMapSet]
  | cons p rest ih =>
    rcases p with ⟨k₀, v₀⟩
    simp only [List.map_cons, List.mem_cons] at h
    push_neg at h
    have hne : ¬ k₀ = k := fun h0 => h.1 h0.symm
    simp [jsMapSet, hne, ih h.2]

theorem jsMapGet_isSome_iff (l : List (String × α)) (k : String) :
    (jsMapGet l k).isSome = true ↔ k ∈ l.map Prod.fst := by
  induction l with
  | nil => simp [jsMapGet]
  | cons p rest ih =>
    rcases p with ⟨k₀, v₀⟩
    by_cases h0 : k₀ = k
    · simp [jsMapGet, h0]
    · have hne : ¬ k = k₀ := fun h => h0 h.symm
      simp [jsMapGet, h0, ih, hne]

theorem jsMapGet_eq_none_iff (l : List (String × α)) (k : String) :
    jsMapGet l k = none ↔ k ∉ l.map Prod.fst := by
  rw [← jsMapGet_isSome_iff]
  cases jsMapGet l k <;> simp

theorem jsMapSet_of_not_mem (l : List (String × α)) (k : String) (v : α)
    (h : k ∉ l.map Prod.fst) : jsMapSet l k v = l ++ [(k, v)] := by
  induction l with
  | nil => simp [jsMapSet]
  | cons p rest ih =>
    rcases p with ⟨k₀, v₀⟩
    simp only [List.map_cons, List.mem_cons] at h
    push_neg at h
    have hne : ¬ k₀ = k := fun h0 => h.1 h0.symm
    simp [jsMapSet, hne, ih h.2]

theorem jsMapDelete_append_single (l : List (String × α)) (k : String) (v : α)
    (h : k ∉ l.map Prod.fst) : jsMapDelete (l ++ [(k, v)]) k = l := by
  induction l with
  | nil => simp [jsMapDelete]
  | cons p rest ih =>
    rcases p with ⟨k₀, v₀⟩
    simp only [List.map_cons, List.mem_cons] at h
    push_neg at h
    have hne : ¬ k₀ = k := fun h0 => h.1 h0.symm
    simp [jsMapDelete, hne, ih h.2]

/-! ## Executor aggregation lemmas -/

/-- Folding `results.set` over a completion order: a key not among the
order's ids keeps its binding. -/
theorem foldl_set_lookup_not_mem (registry : ToolRegistry) (order : List ToolCall)
    (init : List (String × ToolResult)) (k : String)
    (h : k ∉ order.map ToolCall.id) :
    jsMapGet (order.foldl (fun m c => jsMapSet m c.id (ToolExecutor.execute registry c)) init) k
      = jsMapGet init k := by
  induction order generalizing init with
  | nil => rfl
  | cons c rest ih =>
    simp only [List.map_cons, List.mem_cons] at h
    push_neg at h
    simp only [List.foldl_cons]
    rw [ih _ h.2, jsMapGet_set_other _ _ _ _ (fun hne => h.1 hne.symm)]

/-- Key membership after the fold: exactly the initial keys plus the ids
of the executed calls. -/
theorem foldl_set_keys (registry : ToolRegistry) (order : List ToolCall)
    (init : List (String × ToolResult)) (k : String) :
    (k ∈ (order.foldl (fun m c => jsMapSet m c.id (ToolExecutor.execute registry c)) init).map Prod.fst)
      ↔ k ∈ init.map Prod.fst ∨ k ∈ order.map ToolCall.id := by
  induction order generalizing init with
  | nil => simp
  | cons c rest ih =>
    simp only [List.foldl_cons, List.map_cons, List.mem_cons, ih, jsMapSet_keys]
    tauto

/-- The fold preserves key distinctness. -/
theorem foldl_set_keys_nodup (registry : ToolRegistry) (order : List ToolCall)
    (init : List (String × ToolResult))
    (h : (init.map Prod.fst).Nodup) :
    ((order.foldl (fun m c => jsMapSet m c.id (ToolExecutor.execute registry c)) init).map Prod.fst).Nodup := by
  induction order generalizing init with
  | nil => exact h
  | cons c rest ih =>
    simp only [List.foldl_cons]
    exact ih _ (jsMapSet_keys_nodup _ _ _ h)

/-- With pairwise-distinct ids, each call keeps exactly its own result. -/
theorem foldl_set_lookup_nodup (registry : ToolRegistry) (order : List ToolCall)
    (init : List (String × ToolResult)) (c : ToolCall)
    (hnd : (order.map ToolCall.id).Nodup) (hmem : c ∈ order) :
    jsMapGet (order.foldl (fun m r => jsMapSet m r.id (ToolExecutor.execute registry r)) init) c.id
      = some (ToolExecutor.execute registry c) := by
  induction order generalizing init with
  | nil => simp at hmem
  | cons d rest ih =>
    simp only [List.map_cons, List.nodup_cons] at hnd
    rcases List.mem_cons.1 hmem with heq | hmem'
    · subst heq
      simp only [List.foldl_cons]
      rw [foldl_set_lookup_not_mem registry rest _ _ hnd.1, jsMapGet_set_self]
    · simp only [List.foldl_cons]
      exact ih _ hnd.2 hmem'

/-- The key set of `executeManyWithOrder` is the set of the executed ids. -/
theorem executeMany_keys (registry : ToolRegistry) (order : List ToolCall) (k : String) :
    (k ∈ (ToolExecutor.executeManyWithOrder registry order).map Prod.fst)
      ↔ k ∈ order.map ToolCall.id := by
  rw [ToolExecutor.executeManyWithOrder, foldl_set_keys]
  simp

/-! ## Claim C8 -/

/-- C8: in any batch, every call id has a recorded result (for every
completion order); an unregistered name yields a failed result naming the
tool and listing the available names; a throwing handler yields a failed
result carrying the thrown message; and with distinct ids every call keeps
exactly its own result, unaffected by the other calls of the batch. -/
theorem c8_batch_error_isolation :
    (∀ (registry : ToolRegistry) (toolCalls order : List ToolCall) (c : ToolCall),
      order.Perm toolCalls → c ∈ toolCalls →
      jsMapGet (ToolExecutor.executeManyWithOrder registry order) c.id ≠ none) ∧
    (∀ (registry : ToolRegistry) (c : ToolCall),
      registry.get c.name = none →
      ToolExecutor.execute registry c
        = { success := false, data := none,
            error := some ("Unknown tool: " ++ c.name ++ ". Available tools: "
              ++ String.intercalate ", " registry.getAllNames),
            widgets := none }) ∧
    (∀ (registry : ToolRegistry) (c : ToolCall) (t : RegisteredTool) (m : String),
      registry.get c.name = some t → t.handler c.arguments = .error m →
      ToolExecutor.execute registry c
        = { success := false, data := none,
            error := some ("Tool execution failed: " ++ m), widgets := none }) ∧
    (∀ (registry : ToolRegistry) (order : List ToolCall) (c : ToolCall),
      (order.map ToolCall.id).Nodup → c ∈ order →
      jsMapGet (ToolExecutor.executeManyWithOrder registry order) c.id
        = some (ToolExecutor.execute registry c)) := by
  refine ⟨?_, ?_, ?_, ?_⟩
  · intro registry toolCalls order c hperm hmem
    rw [Ne, jsMapGet_eq_none_iff, executeMany_keys]
    intro hnot
    exact hnot ((hperm.map ToolCall.id).mem_iff.2 (List.mem_map_of_mem ToolCall.id hmem))
  · intro registry c hget
    unfold ToolExecutor.execute
    rw [hget]
  · intro registry c t m hget hthrow
    unfold ToolExecutor.execute
    rw [hget]
    dsimp only
    rw [hthrow]
  · intro registry order c hnd hmem
    exact foldl_set_lookup_nodup registry order [] c hnd hmem

/-- Witness for C8: a batch mixing a success, a thrown error and an
unknown tool. -/
theorem c8_batch_error_isolation_witness :
    jsMapGet (ToolExecutor.executeManyWithOrder witnessRegistry
        [⟨"a", "t1", .obj []⟩, ⟨"b", "bad", .obj []⟩, ⟨"c", "nope", .obj []⟩])
        (ToolCall.id ⟨"b", "bad", .obj []⟩) ≠ none ∧
    ToolExecutor.execute witnessRegistry ⟨"c", "nope", .obj []⟩
      = { success := false, data := none,
          error := some ("Unknown tool: " ++ "nope" ++ ". Available tools: "
            ++ String.intercalate ", " witnessRegistry.getAllNames),
          widgets := none } ∧
    ToolExecutor.execute witnessRegistry ⟨"b", "bad", .obj []⟩
      = { success := false, data := none,
          error := some ("Tool execution failed: " ++ "boom"), widgets := none } ∧
    jsMapGet (ToolExecutor.executeManyWithOrder witnessRegistry
        [⟨"a", "t1", .obj []⟩, ⟨"b", "bad", .obj []⟩, ⟨"c", "nope", .obj []⟩])
        (ToolCall.id ⟨"a", "t1", .obj []⟩)
      = some (ToolExecutor.execute witnessRegistry ⟨"a", "t1", .obj []⟩) :=
  ⟨c8_batch_error_isolation.1 witnessRegistry _ _ ⟨"b", "bad", .obj []⟩ (List.Perm.refl _)
      (List.mem_cons_of_mem _ (List.mem_cons_self _ _)),
   c8_batch_error_isolation.2.1 witnessRegistry ⟨"c", "nope", .obj []⟩ rfl,
   c8_batch_error_isolation.2.2.1 witnessRegistry ⟨"b", "bad", .obj []⟩
      ⟨⟨"bad", "throws", .null, none⟩, throwToolHandler⟩ "boom" rfl rfl,
   c8_batch_error_isolation.2.2.2 witnessRegistry _ ⟨"a", "t1", .obj []⟩
      (by simp) (List.mem_cons_self _ _)⟩

/-! ## Claim C9 -/

/-- Counterexample to C9 as stated: when a tool named `a` is already
registered, `register` (last-write-wins `Map.set`) overwrites it in
place, and the following `unregister` deletes the name entirely — the
registry ends up empty instead of returning to its previous
one-entry state, so register-then-unregister is not a no-op in the
same-name case. -/
theorem c9_register_unregister_counterexample :
    ((c9InitialReg.register ⟨"a", "second registration", .null, none⟩ throwToolHandler).unregister
        "a").getAllNames = [] ∧
    c9InitialReg.getAllNames = ["a"] :=
  ⟨rfl, rfl⟩

/-- C9 (amended): registering and then unregistering a name restores the
registry exactly when no tool of that name was registered before. -/
theorem c9_register_unregister_roundtrip (r : ToolRegistry) (d : ToolDefinition)
    (h : ToolHandler) (hfresh : r.get d.name = none) :
    (r.register d h).unregister d.name = r := by
  have hnot : d.name ∉ r.tools.map Prod.fst := (jsMapGet_eq_none_iff _ _).1 hfresh
  cases r with
  | mk tools =>
    show ToolRegistry.mk (jsMapDelete (jsMapSet tools d.name ⟨d, h⟩) d.name) = ⟨tools⟩
    rw [jsMapSet_of_not_mem _ _ _ hnot, jsMapDelete_append_single _ _ _ hnot]

/-- Witness for the amended C9: a fresh name round-trips. -/
theorem c9_register_unregister_roundtrip_witness :
    (c9InitialReg.register ⟨"b", "fresh", .null, none⟩ okToolHandler).unregister "b"
      = c9InitialReg :=
  c9_register_unregister_roundtrip c9InitialReg ⟨"b", "fresh", .null, none⟩ okToolHandler rfl

/-! ## Claim C10 -/

/-- C10: the key set of the result map of `executeMany` (under every
completion order) and of `executeSequential` is exactly the set of the
calls' ids; duplicate ids in one batch collapse — the map has fewer
entries than there were calls; and with two same-id calls one result
silently overwrites the other, so `buildToolResultMessages` feeds only
the surviving result back (once per call). -/
theorem c10_result_map_keyset :
    (∀ (registry : ToolRegistry) (toolCalls order : List ToolCall) (k : String),
      order.Perm toolCalls →
      ((k ∈ (ToolExecutor.executeManyWithOrder registry order).map Prod.fst)
        ↔ k ∈ toolCalls.map ToolCall.id)) ∧
    (∀ (registry : ToolRegistry) (toolCalls order : List ToolCall),
      order.Perm toolCalls → ¬ (toolCalls.map ToolCall.id).Nodup →
      (ToolExecutor.executeManyWithOrder registry order).length < toolCalls.length) ∧
    (∀ (registry : ToolRegistry) (c1 c2 : ToolCall), c1.id = c2.id →
      ToolExecutor.executeManyWithOrder registry [c1, c2]
        = [(c2.id, ToolExecutor.execute registry c2)] ∧
      Agent.buildToolResultMessages [c1, c2]
          (ToolExecutor.executeManyWithOrder registry [c1, c2])
        = [mkToolResultMessage c1 (ToolExecutor.execute registry c2),
           mkToolResultMessage c2 (ToolExecutor.execute registry c2)]) := by
  refine ⟨?_, ?_, ?_⟩
  · intro registry toolCalls order k hperm
    rw [executeMany_keys]
    exact (hperm.map ToolCall.id).mem_iff
  · intro registry toolCalls order hperm hdup
    set em := ToolExecutor.executeManyWithOrder registry order with hem
    have hkeysnd : (em.map Prod.fst).Nodup := by
      rw [hem, ToolExecutor.executeManyWithOrder]
      exact foldl_set_keys_nodup registry order [] (by simp)
    have hmemiff : ∀ k, k ∈ em.map Prod.fst ↔ k ∈ (toolCalls.map ToolCall.id).dedup := by
      intro k
      rw [hem, executeMany_keys, List.mem_dedup]
      exact (hperm.map ToolCall.id).mem_iff
    have hpermdedup : List.Perm (em.map Prod.fst) ((toolCalls.map ToolCall.id).dedup) :=
      (List.perm_ext_iff_of_nodup hkeysnd (List.nodup_dedup _)).2 hmemiff
    have hlen1 : em.length = ((toolCalls.map ToolCall.id).dedup).length := by
      have hl := hpermdedup.length_eq
      simpa using hl
    have hle : ((toolCalls.map ToolCall.id).dedup).length ≤ (toolCalls.map ToolCall.id).length :=
      (List.dedup_sublist _).length_le
    have hne : ((toolCalls.map ToolCall.id).dedup).length ≠ (toolCalls.map ToolCall.id).length := by
      intro heq
      exact hdup (((List.dedup_sublist _).eq_of_length heq) ▸ List.nodup_dedup _)
    have : em.length < (toolCalls.map ToolCall.id).length := by
      rw [hlen1]; exact Nat.lt_of_le_of_ne hle hne
    simpa using this
  · intro registry c1 c2 hid
    constructor
    · show jsMapSet (jsMapSet [] c1.id (ToolExecutor.execute registry c1)) c2.id
        (ToolExecutor.execute registry c2) = _
      simp [jsMapSet, hid]
    · show Agent.buildToolResultMessages [c1, c2]
        (jsMapSet (jsMapSet [] c1.id (ToolExecutor.execute registry c1)) c2.id
          (ToolExecutor.execute registry c2)) = _
      simp [jsMapSet, hid, Agent.buildToolResultMessages, jsMapGet]

/-- Witness for C10: two calls sharing the id `x`, executed in reversed
completion order for the key-set part and in call order for the
overwrite part. -/
theorem c10_result_map_keyset_witness :
    (("x" ∈ (ToolExecutor.executeManyWithOrder witnessRegistry
        [⟨"x", "bad", .obj []⟩, ⟨"x", "t1", .obj []⟩]).map Prod.fst)
      ↔ "x" ∈ ([⟨"x", "t1", .obj []⟩, ⟨"x", "bad", .obj []⟩] : List ToolCall).map ToolCall.id) ∧
    (ToolExecutor.executeManyWithOrder witnessRegistry
        [⟨"x", "bad", .obj []⟩, ⟨"x", "t1", .obj []⟩]).length < 2 ∧
    ToolExecutor.executeManyWithOrder witnessRegistry
        [⟨"x", "t1", .obj []⟩, ⟨"x", "bad", .obj []⟩]
      = [("x", ToolExecutor.execute witnessRegistry ⟨"x", "bad", .obj []⟩)] :=
  ⟨c10_result_map_keyset.1 witnessRegistry _ _ "x" (List.Perm.swap _ _ _),
   c10_result_map_keyset.2.1 witnessRegistry
      [⟨"x", "t1", .obj []⟩, ⟨"x", "bad", .obj []⟩] _ (List.Perm.swap _ _ _) (by simp),
   (c10_result_map_keyset.2.2 witnessRegistry ⟨"x", "t1", .obj []⟩ ⟨"x", "bad", .obj []⟩ rfl).1⟩

/-! ## Claim C1 -/

/-- The function `generateFromToolResults` concatenates the per-result widget lists in
map order. -/
theorem generateFromToolResults_eq (results : List (String × ToolResult)) :
    WidgetGenerator.generateFromToolResults results
      = (results.map (fun p => successWidgets p.2)).flatten := by
  have haux : ∀ (l : List (String × ToolResult)) (acc : List WidgetBlock),
      l.foldl (fun widgets p =>
        match p.2.widgets with
        | some ws => if p.2.success then widgets ++ ws else widgets
        | none => widgets) acc
      = acc ++ (l.map (fun p => successWidgets p.2)).flatten := by
    intro l
    induction l with
    | nil => intro acc; simp
    | cons p rest ih =>
      intro acc
      rcases p with ⟨k, r⟩
      simp only [List.foldl_cons, List.map_cons, List.flatten_cons]
      rcases hw : r.widgets with _ | ws
      · rw [ih]; simp [successWidgets, hw]
      · by_cases hs : r.success
        · simp only [hw, hs, if_true]
          rw [ih]; simp [successWidgets, hw, hs]
        · simp only [hw, hs, if_false]
          rw [ih]; simp [successWidgets, hw, hs]
  exact haux results []

/-- With pairwise-distinct ids the result map lists each call's own
result in completion order. -/
theorem executeMany_eq_map_of_nodup (registry : ToolRegistry) :
    ∀ (order : List ToolCall) (init : List (String × ToolResult)),
      (order.map ToolCall.id).Nodup →
      (∀ c ∈ order, c.id ∉ init.map Prod.fst) →
      order.foldl (fun m c => jsMapSet m c.id (ToolExecutor.execute registry c)) init
        = init ++ order.map (fun c => (c.id, ToolExecutor.execute registry c)) := by
  intro order
  induction order with
  | nil => intro init _ _; simp
  | cons c rest ih =>
    intro init hnd hdisj
    simp only [List.map_cons, List.nodup_cons] at hnd
    simp only [List.foldl_cons, List.map_cons]
    rw [jsMapSet_of_not_mem _ _ _ (hdisj c (List.mem_cons_self _ _))]
    rw [ih _ hnd.2 ?_]
    · simp
    · intro d hd
      simp only [List.map_append, List.mem_append]
      push_neg
      refine ⟨hdisj d (List.mem_cons_of_mem _ hd), ?_⟩
      simp only [List.map_cons, List.map_nil, List.mem_singleton]
      intro heq
      exact hnd.1 (heq ▸ List.mem_map_of_mem ToolCall.id hd)

/-- C1 (amended): within one iteration the widgets are emitted in the
insertion order of the result `Map`, which is the handlers' completion
order (`order`), not the order of the LLM's emitted tool-call list;
`executeSequential` — where completion order is call order — is the
special case `order = toolCalls`. -/
theorem c1_widgets_follow_completion_order (registry : ToolRegistry)
    (order : List ToolCall) (hnd : (order.map ToolCall.id).Nodup) :
    WidgetGenerator.generateFromToolResults
        (ToolExecutor.executeManyWithOrder registry order)
      = (order.map (fun c => successWidgets (ToolExecutor.execute registry c))).flatten := by
  rw [ToolExecutor.executeManyWithOrder,
    executeMany_eq_map_of_nodup registry order [] hnd (by simp),
    generateFromToolResults_eq]
  simp [Function.comp_def]

/-- Counterexample to C1 as stated: the LLM emits the calls in the order
`t1` (widget `wa`), `t2` (widget `wb`); under the completion order in
which `t2` finishes first, the widget events reach the sink as
`[wb, wa]` — handler-completion order, not the order of the emitted
tool-call list. -/
theorem c1_widget_order_counterexample :
    (Agent.parseResponse c1Raw).toolCalls
      = some [⟨"a", "t1", .obj []⟩, ⟨"b", "t2", .obj []⟩] ∧
    widgetEvents (Agent.processRequest c1Env ⟨none⟩
        ⟨[⟨"user", "show my mail"⟩], none⟩ []).stream.sent
      = [c1WidgetB, c1WidgetA] ∧
    [c1WidgetB, c1WidgetA] ≠ [c1WidgetA, c1WidgetB] := by
  refine ⟨rfl, rfl, ?_⟩
  intro h
  have h1 : c1WidgetB = c1WidgetA := by injection h
  have h2 : "wb" = "wa" := congrArg WidgetBlock.id h1
  exact absurd h2 (by decide)

/-- Witness for the amended C1: under the reversed completion order of
the scenario the widgets come out as `[wb, wa]`, matching the completion
order. -/
theorem c1_widgets_follow_completion_order_witness :
    WidgetGenerator.generateFromToolResults
        (ToolExecutor.executeManyWithOrder c1Registry
          [⟨"b", "t2", .obj []⟩, ⟨"a", "t1", .obj []⟩])
      = (([⟨"b", "t2", .obj []⟩, ⟨"a", "t1", .obj []⟩] : List ToolCall).map
          (fun c => successWidgets (ToolExecutor.execute c1Registry c))).flatten :=
  c1_widgets_follow_completion_order c1Registry
    [⟨"b", "t2", .obj []⟩, ⟨"a", "t1", .obj []⟩] (by simp)

/-! ## Claims C3 and C5 -/

/-- The first LLM invocation of a request always receives the system
prompt followed by the last ten entries of the (possibly just-extended)
conversation — regardless of the query text. -/
theorem processRequest_first_request (env : AgentEnv) (config : AgentConfig)
    (request : ChatRequest) (conversation : List LLMMessage)
    (lastMessage : ChatMessage)
    (hlast : request.messages.getLast? = some lastMessage)
    (hav : env.available = true) :
    (Agent.processRequest env config request conversation).llmRequests.head?
      = some (({ role := "system", content := env.systemPrompt, toolCallId := none } : LLMMessage)
          :: ((if lastMessage.role = "user"
                then ConversationManager.addUserMessage conversation lastMessage.content
                else conversation).drop
              ((if lastMessage.role = "user"
                then ConversationManager.addUserMessage conversation lastMessage.content
                else conversation).length - 10))) := by
  unfold Agent.processRequest
  rw [hlast]
  dsimp only
  set s1 : AgentState :=
    (if lastMessage.role = "user" then
      { (⟨⟨false, []⟩, conversation, [], 0⟩ : AgentState) with
        conv := ConversationManager.addUserMessage conversation lastMessage.content }
    else (⟨⟨false, []⟩, conversation, [], 0⟩ : AgentState)) with hs1
  have hs1stream : s1.stream = ⟨false, []⟩ := by
    rw [hs1]; by_cases h : lastMessage.role = "user" <;> simp [h]
  have hs1open : s1.stream.closed = false := by rw [hs1stream]
  have hs1req : s1.llmRequests = [] := by
    rw [hs1]; by_cases h : lastMessage.role = "user" <;> simp [h]
  have hs1conv : s1.conv
      = (if lastMessage.role = "user"
          then ConversationManager.addUserMessage conversation lastMessage.content
          else conversation) := by
    rw [hs1]; by_cases h : lastMessage.role = "user" <;> simp [h]
  simp only [hav, if_true]
  obtain ⟨f, hf⟩ : ∃ f, config.maxIterations - 0 = f + 1 :=
    ⟨config.maxIterations - 1, by have := maxIterations_pos config; omega⟩
  have hloop : Agent.processWithToolLoop env config.maxIterations
      (({ role := "system", content := env.systemPrompt, toolCallId := none } : LLMMessage)
        :: (ConversationManager.getMessages s1.conv).drop
          ((ConversationManager.getMessages s1.conv).length - 10)) 0 s1
      = Agent.loopAux env config.maxIterations (f + 1) 0
          (({ role := "system", content := env.systemPrompt, toolCallId := none } : LLMMessage)
            :: (ConversationManager.getMessages s1.conv).drop
              ((ConversationManager.getMessages s1.conv).length - 10)) s1 := by
    rw [Agent.processWithToolLoop, hf]
  obtain ⟨r, hr⟩ := loopAux_first_request env config.maxIterations f 0
    (({ role := "system", content := env.systemPrompt, toolCallId := none } : LLMMessage)
      :: (ConversationManager.getMessages s1.conv).drop
        ((ConversationManager.getMessages s1.conv).length - 10)) s1 hs1open
  rcases houtcome : Agent.loopAux env config.maxIterations (f + 1) 0
      (({ role := "system", content := env.systemPrompt, toolCallId := none } : LLMMessage)
        :: (ConversationManager.getMessages s1.conv).drop
          ((ConversationManager.getMessages s1.conv).length - 10)) s1 with
    _ | _
  case ok s' =>
    rw [houtcome] at hr
    dsimp only [LoopOutcome.state] at hr
    rw [hloop, houtcome]
    dsimp only
    rw [hr, hs1req, hs1conv]
    simp [ConversationManager.getMessages]
  case thrown s' m =>
    rw [houtcome] at hr
    dsimp only [LoopOutcome.state] at hr
    rw [hloop, houtcome]
    dsimp only
    rw [hr, hs1req, hs1conv]
    simp [ConversationManager.getMessages]

/-- Counterexample to C3 as stated: a request whose last turn is an
assistant turn is processed without any error event — in particular no
`VALIDATION_ERROR` — and the LLM is invoked once. -/
theorem c3_no_validation_error_counterexample :
    (Agent.processRequest plainEnv ⟨none⟩
        ⟨[⟨"assistant", "prior answer"⟩], none⟩ []).llmRequests.length = 1 ∧
    errorCodes (Agent.processRequest plainEnv ⟨none⟩
        ⟨[⟨"assistant", "prior answer"⟩], none⟩ []).stream.sent = [] :=
  ⟨rfl, rfl⟩

/-- C3 (amended): the orchestrator performs no last-turn validation.  A
request whose last turn is not a user turn proceeds normally when the LLM
is available: no `VALIDATION_ERROR` event is ever emitted, the LLM is
invoked at least once, and the only effect of the non-user last turn is
that the conversation is left unrecorded (the first LLM invocation sees
exactly the prior conversation window). -/
theorem c3_no_last_turn_validation (env : AgentEnv) (config : AgentConfig)
    (request : ChatRequest) (conversation : List LLMMessage)
    (lastMessage : ChatMessage)
    (hlast : request.messages.getLast? = some lastMessage)
    (hrole : lastMessage.role ≠ "user")
    (hav : env.available = true) :
    "VALIDATION_ERROR" ∉ errorCodes
        (Agent.processRequest env config request conversation).stream.sent ∧
    1 ≤ (Agent.processRequest env config request conversation).llmRequests.length ∧
    (Agent.processRequest env config request conversation).llmRequests.head?
      = some (({ role := "system", content := env.systemPrompt, toolCallId := none } : LLMMessage)
          :: conversation.drop (conversation.length - 10)) := by
  have hhead := processRequest_first_request env config request conversation lastMessage hlast hav
  rw [if_neg hrole] at hhead
  refine ⟨?_, ?_, hhead⟩
  · intro hmem
    rcases (processRequest_spec env config request conversation).2.2.2 _ hmem with h | h | h <;>
      exact absurd h (by decide)
  · rcases hl : (Agent.processRequest env config request conversation).llmRequests with _ | ⟨a, rest⟩
    · rw [hl] at hhead; simp at hhead
    · simp

/-- Witness for the amended C3: the concrete assistant-last request. -/
theorem c3_no_last_turn_validation_witness :
    "VALIDATION_ERROR" ∉ errorCodes
        (Agent.processRequest plainEnv ⟨none⟩
          ⟨[⟨"assistant", "prior answer"⟩], none⟩ []).stream.sent ∧
    1 ≤ (Agent.processRequest plainEnv ⟨none⟩
        ⟨[⟨"assistant", "prior answer"⟩], none⟩ []).llmRequests.length ∧
    (Agent.processRequest plainEnv ⟨none⟩
        ⟨[⟨"assistant", "prior answer"⟩], none⟩ []).llmRequests.head?
      = some [{ role := "system", content := "S", toolCallId := none }] :=
  c3_no_last_turn_validation plainEnv ⟨none⟩ ⟨[⟨"assistant", "prior answer"⟩], none⟩ []
    ⟨"assistant", "prior answer"⟩ rfl (by decide) rfl

/-- Counterexample to C5 as stated: the query starts with the standalone
action verb `find` and carries no contextual indicator, yet the message
list sent to the LLM contains the prior conversation history (system
prompt plus four entries), not just the system prompt and the current
user turn. -/
theorem c5_history_always_included_counterexample :
    listStartsWith "find".data "find my invoice".data = true ∧
    (Agent.processRequest plainEnv ⟨none⟩
        ⟨[⟨"user", "find my invoice"⟩], none⟩ c5Conversation).llmRequests
      = [[⟨"system", "S", none⟩, ⟨"user", "earlier question", none⟩,
          ⟨"assistant", "earlier answer", none⟩, ⟨"user", "find my invoice", none⟩]] :=
  ⟨rfl, rfl⟩

/-- C5 (amended): no context-inclusion gating exists.  For every query —
action-verb or not — the message list of the first LLM invocation is the
system prompt followed by the last ten entries of the conversation after
the current user turn is recorded. -/
theorem c5_no_context_gating (env : AgentEnv) (config : AgentConfig)
    (request : ChatRequest) (conversation : List LLMMessage)
    (lastMessage : ChatMessage)
    (hlast : request.messages.getLast? = some lastMessage)
    (hrole : lastMessage.role = "user")
    (hav : env.available = true) :
    (Agent.processRequest env config request conversation).llmRequests.head?
      = some (({ role := "system", content := env.systemPrompt, toolCallId := none } : LLMMessage)
          :: ((ConversationManager.addUserMessage conversation lastMessage.content).drop
            ((ConversationManager.addUserMessage conversation lastMessage.content).length - 10))) := by
  have hhead := processRequest_first_request env config request conversation lastMessage hlast hav
  rw [if_pos hrole] at hhead
  exact hhead

/-- Witness for the amended C5: the concrete action-verb request. -/
theorem c5_no_context_gating_witness :
    (Agent.processRequest plainEnv ⟨none⟩
        ⟨[⟨"user", "find my invoice"⟩], none⟩ c5Conversation).llmRequests.head?
      = some (({ role := "system", content := "S", toolCallId := none } : LLMMessage)
          :: ((ConversationManager.addUserMessage c5Conversation "find my invoice").drop
            ((ConversationManager.addUserMessage c5Conversation "find my invoice").length - 10))) :=
  c5_no_context_gating plainEnv ⟨none⟩ ⟨[⟨"user", "find my invoice"⟩], none⟩ c5Conversation
    ⟨"user", "find my invoice"⟩ rfl rfl rfl

/-! ## Claim C4 -/

/-- Counterexample to C4 as stated: the user query contains the summary
keyword `summary`, the tool result carries a widget, and the orchestrator
emits that widget to the sink anyway — there is no summary-request
suppression in the widget-emission path. -/
theorem c4_summary_suppression_counterexample :
    containsSub "give me a summary of my emails" "summary" = true ∧
    widgetEvents (Agent.processRequest c4Env ⟨none⟩
        ⟨[⟨"user", "give me a summary of my emails"⟩], none⟩ []).stream.sent
      = [c4Widget] :=
  ⟨rfl, rfl⟩

/-- C4 (amended): widget emission from tool results is unconditional.  In
any live iteration whose parse yields tool calls, every widget collected
from the successful tool results is emitted to the sink, whatever the
user query was (the summary keyword list exists only as prompt text
advising the LLM to answer without widgets). -/
theorem c4_tool_widgets_always_emitted (env : AgentEnv) (maxIterations iteration : Nat)
    (messages : List LLMMessage) (s : AgentState) (tcs : List ToolCall) (w : WidgetBlock)
    (hc : s.stream.closed = false)
    (hlt : iteration < maxIterations)
    (herr : (collectChunks (env.streams iteration)).2 = none)
    (hpt : (Agent.parseResponse (collectChunks (env.streams iteration)).1).toolCalls = some tcs)
    (hlen : 0 < tcs.length)
    (hw : w ∈ WidgetGenerator.generateFromToolResults
        (ToolExecutor.executeManyWithOrder env.registry (env.reorder iteration tcs))) :
    StreamEvent.widget w
      ∈ (Agent.processWithToolLoop env maxIterations messages iteration s).state.stream.sent := by
  obtain ⟨f, hf⟩ : ∃ f, maxIterations - iteration = f + 1 :=
    ⟨maxIterations - iteration - 1, by omega⟩
  rw [Agent.processWithToolLoop, hf]
  set st := (if iteration = 0 then "Thinking..." else "Processing tool results...") with hst
  set sR : AgentState :=
    { (s.statusEvent st) with
      llmRequests := (s.statusEvent st).llmRequests ++ [messages] } with hsR
  have hR1 : sR.stream = ⟨false, s.stream.sent ++ [.status st]⟩ := by
    rw [hsR]
    simp [AgentState.statusEvent, StreamHelper.sendStatus, sendEvent_of_open _ _ hc]
  have hRopen : sR.stream.closed = false := by rw [hR1]
  have hunfold : Agent.loopAux env maxIterations (f + 1) iteration messages s
      = (match collectChunks (env.streams iteration) with
        | (_, some e) => .ok { sR with stream := sR.stream.sendError e "LLM_ERROR" }
        | (fullResponse, none) =>
          let parsed := Agent.parseResponse fullResponse
          match parsed.toolCalls with
          | some tcs' =>
            if 0 < tcs'.length then
              let results := ToolExecutor.executeManyWithOrder env.registry (env.reorder iteration tcs')
              let toolWidgets := WidgetGenerator.generateFromToolResults results
              let s2 := toolWidgets.foldl AgentState.widgetEvent sR
              let toolMessages := Agent.buildToolResultMessages tcs' results
              let newMessages := messages
                ++ ({ role := "assistant", content := fullResponse, toolCallId := none } : LLMMessage)
                :: toolMessages
              Agent.loopAux env maxIterations f (iteration + 1) newMessages s2
            else finalResponseStep sR parsed fullResponse
          | none => finalResponseStep sR parsed fullResponse) := rfl
  rw [hunfold]
  rcases hcc : collectChunks (env.streams iteration) with ⟨full, err⟩
  rw [hcc] at herr hpt
  dsimp only at herr hpt
  subst herr
  dsimp only
  rw [hpt]
  dsimp only
  rw [if_pos hlen]
  set toolWidgets := WidgetGenerator.generateFromToolResults
    (ToolExecutor.executeManyWithOrder env.registry (env.reorder iteration tcs)) with htw
  obtain ⟨f1, f2, _, _, _⟩ := foldl_widgetEvent_spec toolWidgets sR hRopen
  set s2 := toolWidgets.foldl AgentState.widgetEvent sR with hs2
  have hmem2 : StreamEvent.widget w ∈ s2.stream.sent := by
    rw [f2]
    exact List.mem_append_right _ (List.mem_map_of_mem StreamEvent.widget hw)
  rcases loopAux_spec env maxIterations f (iteration + 1)
      (messages ++ ({ role := "assistant", content := full, toolCallId := none } : LLMMessage)
        :: Agent.buildToolResultMessages tcs
          (ToolExecutor.executeManyWithOrder env.registry (env.reorder iteration tcs)))
      s2 f1 with
    ⟨s', t, r, heq, p1, _, _, _, _, _⟩ | ⟨s', m, t, r, heq, p1, _, _, _, _, _⟩
  · rw [heq]
    dsimp only [LoopOutcome.state]
    rw [p1]
    exact List.mem_append_left _ hmem2
  · rw [heq]
    dsimp only [LoopOutcome.state]
    rw [p1]
    exact List.mem_append_left _ hmem2

/-- Witness for the amended C4: in the concrete C4 scenario the collected
tool widget reaches the sink. -/
theorem c4_tool_widgets_always_emitted_witness :
    StreamEvent.widget c4Widget
      ∈ (Agent.processWithToolLoop c4Env 5 [] 0 ⟨⟨false, []⟩, [], [], 0⟩).state.stream.sent :=
  c4_tool_widgets_always_emitted c4Env 5 0 [] ⟨⟨false, []⟩, [], [], 0⟩
    [⟨"s1", "search_emails", .obj []⟩] c4Widget rfl (by omega) rfl rfl (by simp)
    (by rw [show WidgetGenerator.generateFromToolResults
        (ToolExecutor.executeManyWithOrder c4Env.registry
          (c4Env.reorder 0 [⟨"s1", "search_emails", .obj []⟩])) = [c4Widget] from rfl]
        exact List.mem_singleton.2 rfl)

/-! ## Claim C6 -/

/-- Counterexample to C6 as stated: `parseResponse` returns the object
`{summary: "hi"}` itself as the `response` — it does not normalize to the
string under the `summary` key. -/
theorem c6_response_object_counterexample :
    (Agent.parseResponse c6Raw).response = Json.obj [("summary", Json.str "hi")] ∧
    (Agent.parseResponse c6Raw).response ≠ Json.str "hi" := by
  refine ⟨rfl, ?_⟩
  intro h
  rw [show (Agent.parseResponse c6Raw).response
      = Json.obj [("summary", Json.str "hi")] from rfl] at h
  exact Json.noConfusion h

/-- C6 (amended): when the raw output parses as JSON (and the `tool_calls`
normalization does not throw), the parser passes the `response` value
through unchanged — an object stays an object; only a falsy value is
replaced by the empty string.  No `summary`/`text`/`message` extraction
happens. -/
theorem c6_response_passthrough (raw : String) (slice : List Char) (j : Json)
    (p : ParsedLLMResponse)
    (hslice : extractJsonSource raw = some slice)
    (hparse : jsonParse slice = some j)
    (hnorm : normalizeParsed j = some p) :
    Agent.parseResponse raw = p ∧
    p.response = (match j.get "response" with
      | some v => if jsTruthy v then v else .str ""
      | none => .str "") := by
  constructor
  · unfold Agent.parseResponse
    rw [hslice]
    dsimp only
    rw [hparse]
    dsimp only
    rw [hnorm]
  · unfold normalizeParsed at hnorm
    dsimp only at hnorm
    split at hnorm
    · exact absurd hnorm (by simp)
    · injection hnorm with h
      rw [← h]

/-- Witness for the amended C6 at the concrete input. -/
theorem c6_response_passthrough_witness :
    Agent.parseResponse c6Raw = c6Parsed ∧
    c6Parsed.response = (match c6Json.get "response" with
      | some v => if jsTruthy v then v else .str ""
      | none => .str "") :=
  c6_response_passthrough c6Raw c6Raw.data c6Json c6Parsed rfl rfl rfl

/-- Witness for C2: the concrete plain-response run emits exactly one
terminal event, and a send on an already-closed helper is a no-op. -/
theorem c2_single_terminal_event_witness :
    terminalCount (Agent.processRequest plainEnv ⟨none⟩
        ⟨[⟨"user", "hello"⟩], none⟩ []).stream.sent = 1 ∧
    StreamHelper.sendEvent ⟨true, [StreamEvent.done]⟩ StreamEvent.done
      = ⟨true, [StreamEvent.done]⟩ :=
  ⟨(c2_single_terminal_event plainEnv ⟨none⟩ ⟨[⟨"user", "hello"⟩], none⟩ []).1,
   (c2_single_terminal_event plainEnv ⟨none⟩ ⟨[⟨"user", "hello"⟩], none⟩ []).2.2
      ⟨true, [StreamEvent.done]⟩ StreamEvent.done rfl⟩
